import Mathlib

/-!
# rss2tg: the Telegram bot's dialog engine and broadcaster

A shallow embedding of `internal/bot/bot.go`.

* Go strings are Lean `String`s; the library functions the bot calls
  (`strconv.Atoi`, `strings.Split`, `strings.HasPrefix`, `strings.TrimPrefix`,
  `strings.Join`, `fmt.Sprintf`) are written over the character list.  Every
  separator and every token prefix the bot uses is ASCII, so splitting and
  prefix tests on characters agree with Go's on bytes.
* Go `int` is a 64-bit signed integer, embedded as `Int`; the only place where
  the width matters is the range check of `strconv.Atoi`.
* `b.userState` is a Go map: a function to `Option String`, a read of a missing
  key giving the empty string.
* The collaborators (`b.api.Send`, `b.config.Save`, `config.Load`,
  `b.updateRSSHandler`, `b.stats.IncrementMessageCount`) are recorded as a
  trace of effects; what they answer is an input of the call.
* A Go run-time panic (an index out of range, a nil `*time.Location`) leaves
  the call without a result (`none`).  Every panic of `handleUserInput`
  precedes the first effect of the call.
-/

namespace Rss2tg

/-! ## The Go library functions used by the bot -/

/-- The two errors of `strconv.Atoi`. -/
inductive NumError where
  | ErrSyntax
  | ErrRange
  deriving DecidableEq, Repr

/-- Largest value of Go's `uint64`. -/
def maxUint64 : Nat := 2 ^ 64 - 1

/-- Largest value of Go's `int` (64 bits). -/
def maxInt : Int := 2 ^ 63 - 1

/-- Smallest value of Go's `int` (64 bits). -/
def minInt : Int := -(2 ^ 63)

/-- Value of a decimal digit, `none` for any other character. -/
def digitVal (c : Char) : Option Nat :=
  if 48 ≤ c.toNat ∧ c.toNat ≤ 57 then some (c.toNat - 48) else none

/-- The loop of `strconv.ParseUint(s, 10, 64)`: left to right, a character
that is no digit is a syntax error, and the first digit that takes the value
past `maxUint64` is a range error. -/
def parseUintLoop : List Char → Nat → Except NumError Nat
  | [], n => .ok n
  | c :: cs, n =>
    match digitVal c with
    | none => .error .ErrSyntax
    | some d =>
      if n * 10 + d > maxUint64 then .error .ErrRange
      else parseUintLoop cs (n * 10 + d)

/-- `strconv.ParseUint(s, 10, 64)` on the characters of `s`. -/
def ParseUint (s : List Char) : Except NumError Nat :=
  match s with
  | [] => .error .ErrSyntax
  | _ => parseUintLoop s 0

/-- `strconv.ParseInt(s, 10, 0)` on the characters of `s`: the value and the
error, as Go returns both (0 with a syntax error, the nearest bound with a
range error). -/
def ParseInt (s : List Char) : Int × Option NumError :=
  match s with
  | [] => (0, some .ErrSyntax)
  | c :: rest =>
    let neg := c == '-'
    let body := if c == '+' ∨ c == '-' then rest else s
    match ParseUint body with
    | .error .ErrSyntax => (0, some .ErrSyntax)
    | .error .ErrRange => (if neg then minInt else maxInt, some .ErrRange)
    | .ok un =>
      if ¬ neg ∧ un ≥ 2 ^ 63 then (maxInt, some .ErrRange)
      else if neg ∧ un > 2 ^ 63 then (minInt, some .ErrRange)
      else (if neg then -(un : Int) else (un : Int), none)

/-- `strconv.Atoi`: its fast path for short strings computes what `ParseInt`
computes. -/
def Atoi (s : String) : Int × Option NumError :=
  ParseInt s.data

/-- Decimal digits of a natural number, most significant first; `fuel` bounds
the number of digits. -/
def natDigits : Nat → Nat → List Char
  | 0, _ => []
  | fuel + 1, n =>
    if n < 10 then [Char.ofNat (48 + n)]
    else natDigits fuel (n / 10) ++ [Char.ofNat (48 + n % 10)]

/-- `fmt.Sprintf("%d", n)` for a Go `int`. -/
def formatInt (n : Int) : String :=
  if n < 0 then ⟨'-' :: natDigits (n.natAbs + 1) n.natAbs⟩
  else ⟨natDigits (n.natAbs + 1) n.natAbs⟩

/-- `strings.HasPrefix`. -/
def HasPrefix (s pre : String) : Bool :=
  pre.data.isPrefixOf s.data

/-- `strings.TrimPrefix`. -/
def TrimPrefix (s pre : String) : String :=
  if HasPrefix s pre then ⟨s.data.drop pre.data.length⟩ else s

/-- The loop of `strings.Split(s, ",")`: `cur` holds the characters of the
field being read, in reverse. -/
def splitLoop : List Char → List Char → List String
  | [], cur => [⟨cur.reverse⟩]
  | c :: cs, cur =>
    if c = ',' then ⟨cur.reverse⟩ :: splitLoop cs []
    else splitLoop cs (c :: cur)

/-- `strings.Split(s, ",")`: never empty, `[""]` for the empty string. -/
def Split (s : String) : List String :=
  splitLoop s.data []

/-- `strings.Join(elems, sep)`. -/
def Join (elems : List String) (sep : String) : String :=
  match elems with
  | [] => ""
  | e :: es => es.foldl (fun acc x => acc ++ sep ++ x) e

/-- `fmt.Sprintf("%v", xs)` for a slice of strings: the elements between
brackets, separated by one space. -/
def formatStrings (xs : List String) : String :=
  "[" ++ Join xs " " ++ "]"

/-- `fmt.Sprintf("%v", xs)` for a slice of `int64`. -/
def formatInts (xs : List Int) : String :=
  "[" ++ Join (xs.map formatInt) " " ++ "]"

/-- Read `s[i]` of a Go slice: `none` when `i` is out of range (a panic). -/
def index? {α : Type} (s : List α) (i : Int) : Option α :=
  if 0 ≤ i then s[i.toNat]? else none

/-- Assign through `s[i]` of a Go slice (`s[i].F = v` is `update? s i f` with
`f` setting field `F`): `none` when `i` is out of range (a panic). -/
def update? {α : Type} (s : List α) (i : Int) (f : α → α) : Option (List α) :=
  match index? s i with
  | none => none
  | some x => some (s.set i.toNat (f x))

/-! ## Data model -/

/-- Modelled from the spec: `config.RSSConfig`, whose declaration is in
`internal/config`; the four fields are the ones `bot.go` reads and writes
(url, interval in seconds, keyword filters, group label).  A nil `Keywords`
slice is the empty list. -/
structure RSSConfig where
  URL : String
  Interval : Int
  Keywords : List String
  Group : String
  deriving DecidableEq, Repr

/-- Modelled from the spec: `config.Config`, of which `bot.go` uses the field
`RSS` and the method `Save`. -/
structure Config where
  RSS : List RSSConfig
  deriving DecidableEq, Repr

/-- The fields of `Bot` that the handlers read or write. -/
structure Bot where
  users : List Int
  channels : List String
  config : Config
  userState : Int → Option String

/-- What a handler does to its collaborators, in the order it does it. -/
inductive Effect where
  /-- `b.sendMessage(chatID, text)`: one `b.api.Send`. -/
  | send (chatID : Int) (text : String)
  /-- `b.config.Save(b.configFile)`, with the list that is written. -/
  | save (rss : List RSSConfig)
  /-- `b.updateRSSHandler()`, the subscriptions-changed callback. -/
  | updateRSS
  deriving DecidableEq, Repr

/-- `b.userState[userID]`: the empty string for a missing key. -/
def Bot.state (b : Bot) (userID : Int) : String :=
  (b.userState userID).getD ""

/-- `b.userState[userID] = token`. -/
def Bot.setState (b : Bot) (userID : Int) (token : String) : Bot :=
  { b with userState := fun u => if u = userID then some token else b.userState u }

/-- `delete(b.userState, userID)`. -/
def Bot.deleteState (b : Bot) (userID : Int) : Bot :=
  { b with userState := fun u => if u = userID then none else b.userState u }

/-- `b.config.RSS = rss`. -/
def Bot.setRSS (b : Bot) (rss : List RSSConfig) : Bot :=
  { b with config := { RSS := rss } }

/-- The effects of a commit: `Save`, then the message of its outcome, then the
callback when `Save` returned no error. -/
def commit (rss : List RSSConfig) (saveErr : Bool) (chatID : Int)
    (failed succeeded : String) : List Effect :=
  if saveErr then [.save rss, .send chatID failed]
  else [.save rss, .send chatID succeeded, .updateRSS]

/-! ## The dialog engine -/

/-- `Bot.handleUserInput` (bot.go 230-334).  `saveErr` says whether
`b.config.Save` returns an error if the call reaches it.  The result is the
bot after the call and the effects of the call; `none` is a panic on an index
out of range. -/
def handleUserInput (b : Bot) (saveErr : Bool) (userID chatID : Int) (text : String) :
    Option (Bot × List Effect) :=
  let state := b.state userID
  if state = "add_url" then
    let b1 := b.setState userID "add_interval"
    let b2 := b1.setRSS
      (b1.config.RSS ++ [{ URL := text, Interval := 0, Keywords := [], Group := "" }])
    some (b2, [.send chatID "请输入订阅的更新间隔（秒）："])
  else if state = "add_interval" then
    match Atoi text with
    | (_, some _) => some (b, [.send chatID "无效的间隔时间，请输入一个整数。"])
    | (interval, none) =>
      match update? b.config.RSS (b.config.RSS.length - 1)
          (fun r => { r with Interval := interval }) with
      | none => none
      | some rss =>
        some ((b.setRSS rss).setState userID "add_keywords",
          [.send chatID "请输入关键词（用逗号分隔，如果没有可以直接输入1）："])
  else if state = "add_keywords" then
    let rss? :=
      if text ≠ "1" then
        update? b.config.RSS (b.config.RSS.length - 1)
          (fun r => { r with Keywords := Split text })
      else some b.config.RSS
    match rss? with
    | none => none
    | some rss =>
      some ((b.setRSS rss).setState userID "add_group", [.send chatID "请输入组名："])
  else if state = "add_group" then
    match update? b.config.RSS (b.config.RSS.length - 1)
        (fun r => { r with Group := text }) with
    | none => none
    | some rss =>
      some ((b.setRSS rss).deleteState userID,
        commit rss saveErr chatID "添加订阅成功，但保存配置失败。" "成功添加RSS订阅。")
  else if state = "edit_index" then
    let (index, err) := Atoi text
    if err.isSome ∨ index < 1 ∨ index > b.config.RSS.length then
      some (b.deleteState userID, [.send chatID "无效的编号。请使用 /edit 重新开始。"])
    else
      match index? b.config.RSS (index - 1) with
      | none => none
      | some r =>
        some (b.setState userID ("edit_url_" ++ formatInt (index - 1)),
          [.send chatID ("当前URL为：" ++ r.URL ++ "\n请输入新的URL（如不修改请输入1）：")])
  else if state = "delete" then
    let (index, err) := Atoi text
    if err.isSome ∨ index < 1 ∨ index > b.config.RSS.length then
      some (b.deleteState userID, [.send chatID "无效的编号。请使用 /delete 重新开始。"])
    else
      match index? b.config.RSS (index - 1) with
      | none => none
      | some deletedRSS =>
        let rss := b.config.RSS.take (index - 1).toNat ++ b.config.RSS.drop index.toNat
        some ((b.setRSS rss).deleteState userID,
          commit rss saveErr chatID "删除订阅成功，但保存配置失败。"
            ("成功删除订阅: " ++ deletedRSS.URL))
  else if HasPrefix state "edit_url_" then
    let index := (Atoi (TrimPrefix state "edit_url_")).1
    let rss? :=
      if text ≠ "1" then update? b.config.RSS index (fun r => { r with URL := text })
      else some b.config.RSS
    match rss? with
    | none => none
    | some rss =>
      match index? rss index with
      | none => none
      | some r =>
        some ((b.setRSS rss).setState userID ("edit_interval_" ++ formatInt index),
          [.send chatID ("当前间隔为：" ++ formatInt r.Interval
            ++ "秒\n请输入新的间隔时间（秒）（如不修改请输入1）：")])
  else if HasPrefix state "edit_interval_" then
    let index := (Atoi (TrimPrefix state "edit_interval_")).1
    let rss? : Option (Option (List RSSConfig)) :=
      if text ≠ "1" then
        match Atoi text with
        | (_, some _) => some none
        | (interval, none) =>
          (update? b.config.RSS index (fun r => { r with Interval := interval })).map some
      else some (some b.config.RSS)
    match rss? with
    | none => none
    | some none =>
      some (b, [.send chatID "无效的间隔时间，请输入一个整数。不修改请输入1。"])
    | some (some rss) =>
      match index? rss index with
      | none => none
      | some r =>
        some ((b.setRSS rss).setState userID ("edit_keywords_" ++ formatInt index),
          [.send chatID ("当前关键词为：" ++ formatStrings r.Keywords
            ++ "\n请输入新的关键词（用逗号分隔，如不修改请输入1）：")])
  else if HasPrefix state "edit_keywords_" then
    let index := (Atoi (TrimPrefix state "edit_keywords_")).1
    let rss? :=
      if text ≠ "1" then
        update? b.config.RSS index (fun r => { r with Keywords := Split text })
      else some b.config.RSS
    match rss? with
    | none => none
    | some rss =>
      match index? rss index with
      | none => none
      | some r =>
        some ((b.setRSS rss).setState userID ("edit_group_" ++ formatInt index),
          [.send chatID ("当前组名为：" ++ r.Group ++ "\n请输入新的组名（如不修改请输入1）：")])
  else if HasPrefix state "edit_group_" then
    let index := (Atoi (TrimPrefix state "edit_group_")).1
    let rss? :=
      if text ≠ "1" then update? b.config.RSS index (fun r => { r with Group := text })
      else some b.config.RSS
    match rss? with
    | none => none
    | some rss =>
      some ((b.setRSS rss).deleteState userID,
        commit rss saveErr chatID "编辑订阅成功，但保存配置失败。" "成功编辑RSS订阅。")
  else some (b, [])

/-! ## The command handlers -/

/-- `Bot.handleAdd` (bot.go 203-206). -/
def handleAdd (b : Bot) (chatID userID : Int) : Bot × List Effect :=
  (b.setState userID "add_url", [.send chatID "请输入要添加的RSS订阅URL："])

/-- `Bot.handleEdit` (bot.go 208-211). -/
def handleEdit (b : Bot) (chatID userID : Int) : Bot × List Effect :=
  (b.setState userID "edit_index", [.send chatID "请输入要编辑的RSS订阅编号："])

/-- `Bot.handleDelete` (bot.go 213-216). -/
def handleDelete (b : Bot) (chatID userID : Int) : Bot × List Effect :=
  (b.setState userID "delete", [.send chatID "请输入要删除的RSS订阅编号："])

/-- `Bot.reloadConfig` (bot.go 171-178): `load` is what `config.Load` returns,
the text of its error or the configuration read. -/
def reloadConfig (b : Bot) (load : Except String Config) : Bot × Option String :=
  match load with
  | .error err => (b, some err)
  | .ok newConfig => ({ b with config := newConfig }, none)

/-- One entry of the listings of `getConfig` and `listSubscriptions`: `i` is
the position in the list, from 0. -/
def formatRSS (i : Nat) (rss : RSSConfig) : String :=
  formatInt (i + 1) ++ ". 📡  URL: " ++ rss.URL ++ "\n   ⏱️  间隔: " ++ formatInt rss.Interval
    ++ "秒\n   🔑  关键词: " ++ formatStrings rss.Keywords ++ "\n   🏷️  组名: " ++ rss.Group
    ++ "\n"

/-- The loop `for i, rss := range b.config.RSS` that both listings share,
from position `i` on. -/
def appendRSS : String → Nat → List RSSConfig → String
  | acc, _, [] => acc
  | acc, i, rss :: rest => appendRSS (acc ++ formatRSS i rss) (i + 1) rest

/-- `Bot.getConfig` (bot.go 343-352). -/
def getConfig (b : Bot) : String :=
  appendRSS ("当前配置信息：\n" ++ ("用户: " ++ formatInts b.users ++ "\n")
    ++ ("频道: " ++ formatStrings b.channels ++ "\n") ++ "RSS订阅:\n") 0 b.config.RSS

/-- `Bot.listSubscriptions` (bot.go 354-360). -/
def listSubscriptions (b : Bot) : String :=
  appendRSS "当前RSS订阅列表:\n" 0 b.config.RSS

/-- `Bot.handleConfig` (bot.go 195-201). -/
def handleConfig (b : Bot) (load : Except String Config) (chatID : Int) : Bot × List Effect :=
  match reloadConfig b load with
  | (b1, some err) => (b1, [.send chatID ("加载配置时出错：" ++ err)])
  | (b1, none) => (b1, [.send chatID (getConfig b1)])

/-- `Bot.handleList` (bot.go 218-224). -/
def handleList (b : Bot) (load : Except String Config) (chatID : Int) : Bot × List Effect :=
  match reloadConfig b load with
  | (b1, some err) => (b1, [.send chatID ("加载配置时出错：" ++ err)])
  | (b1, none) => (b1, [.send chatID (listSubscriptions b1)])

/-- `Bot.getStats` (bot.go 362-365), on the two counts that
`b.stats.GetMessageCounts()` returns. -/
def getStats (dailyCount weeklyCount : Int) : String :=
  "推送统计:\n📊  今日推送: " ++ formatInt dailyCount ++ "\n📈  本周推送: " ++ formatInt weeklyCount

/-- `Bot.handleStart` (bot.go 180-182). -/
def handleStart (b : Bot) (chatID : Int) : Bot × List Effect :=
  (b, [.send chatID "欢迎使用RSS订阅机器人！使用 /help 查看可用命令。"])

/-- `Bot.handleHelp` (bot.go 184-193). -/
def handleHelp (b : Bot) (chatID : Int) : Bot × List Effect :=
  (b, [.send chatID ("可用命令：\n/config - 查看当前配置\n/add - 添加RSS订阅\n/edit - 编辑RSS订阅\n"
    ++ "/delete - 删除RSS订阅\n/list - 列出所有RSS订阅\n/stats - 查看推送统计")])

/-- `Bot.handleStats` (bot.go 226-228). -/
def handleStats (b : Bot) (dailyCount weeklyCount : Int) (chatID : Int) : Bot × List Effect :=
  (b, [.send chatID (getStats dailyCount weeklyCount)])

/-! ## The update loop -/

/-- One element of the channel `b.api.GetUpdatesChan` delivers, as the loop of
`Start` reads it: no message, a command with its name, or any other text. -/
inductive Update where
  | noMessage
  | command (name : String) (userID chatID : Int)
  | text (userID chatID : Int) (text : String)
  deriving DecidableEq, Repr

/-- What the collaborators answer while one update is handled. -/
structure Answers where
  /-- Whether `b.config.Save` returns an error. -/
  saveErr : Bool
  /-- What `config.Load` returns. -/
  load : Except String Config
  /-- What `b.stats.GetMessageCounts` returns. -/
  counts : Int × Int

/-- The body of the loop of `Bot.Start` (bot.go 92-124). -/
def dispatch (b : Bot) (w : Answers) : Update → Option (Bot × List Effect)
  | .noMessage => some (b, [])
  | .command name userID chatID =>
    if name = "start" then some (handleStart b chatID)
    else if name = "help" then some (handleHelp b chatID)
    else if name = "config" then some (handleConfig b w.load chatID)
    else if name = "add" then some (handleAdd b chatID userID)
    else if name = "edit" then some (handleEdit b chatID userID)
    else if name = "delete" then some (handleDelete b chatID userID)
    else if name = "list" then some (handleList b w.load chatID)
    else if name = "stats" then some (handleStats b w.counts.1 w.counts.2 chatID)
    else some (b, [.send chatID "未知命令，请使用 /help 查看可用命令。"])
  | .text userID chatID text => handleUserInput b w.saveErr userID chatID text

/-- The loop of `Bot.Start` over a finite run of updates, each with the
answers of the collaborators: the bot at the end and all effects in order,
`none` as soon as one update panics. -/
def run (b : Bot) : List (Update × Answers) → Option (Bot × List Effect)
  | [] => some (b, [])
  | (u, w) :: rest =>
    match dispatch b w u with
    | none => none
    | some (b1, effects) =>
      match run b1 rest with
      | none => none
      | some (b2, more) => some (b2, effects ++ more)

/-! ## The broadcaster -/

/-- What `SendMessage` does to its collaborators, in order. -/
inductive Delivery where
  /-- `b.api.Send` of `tgbotapi.NewMessage(userID, text)`, Markdown. -/
  | toUser (userID : Int) (text : String)
  /-- `b.api.Send` of `tgbotapi.NewMessageToChannel(channel, text)`, Markdown. -/
  | toChannel (channel : String) (text : String)
  /-- `b.stats.IncrementMessageCount()`. -/
  | increment
  deriving DecidableEq, Repr

/-- The loop `for i, keyword := range matchedKeywords` of `SendMessage`. -/
def boldKeywords (matchedKeywords : List String) : List String :=
  matchedKeywords.map (fun keyword => "*" ++ keyword ++ "*")

/-- The text `SendMessage` builds (bot.go 137-142); `time` is
`pubDateChina.Format("2006-01-02 15:04:05")`. -/
def messageText (title url group time : String) (matchedKeywords : List String) : String :=
  "*" ++ title ++ "*\n📡  " ++ url ++ "\n🔍  " ++ Join (boldKeywords matchedKeywords) ", "
    ++ "\n🏷️  *" ++ group ++ "*\n🕒  *" ++ time ++ "*"

/-- The loop over `b.users` (bot.go 146-155): `sendErr k` says whether the
send numbered `k` (from 0, over both loops) returns an error. -/
def sendToUsers (text : String) (sendErr : Nat → Bool) : List Int → Nat → List Delivery
  | [], _ => []
  | userID :: rest, k =>
    (if sendErr k then [.toUser userID text] else [.toUser userID text, .increment])
      ++ sendToUsers text sendErr rest (k + 1)

/-- The loop over `b.channels` (bot.go 157-166). -/
def sendToChannels (text : String) (sendErr : Nat → Bool) : List String → Nat → List Delivery
  | [], _ => []
  | channel :: rest, k =>
    (if sendErr k then [.toChannel channel text] else [.toChannel channel text, .increment])
      ++ sendToChannels text sendErr rest (k + 1)

/-- `Bot.SendMessage` (bot.go 127-169).  `Time` is the type of `time.Time`.
`chinaLoc` is what `time.LoadLocation("Asia/Shanghai")` returns, given as the
function `pubDate.In(chinaLoc).Format("2006-01-02 15:04:05")` of `pubDate`; it
is `none` when the zone cannot be loaded: the code ignores that error, and
`pubDate.In` panics on the nil location.  The result is the trace of sends and
increments and the returned error (`none` for Go's `nil`); no result is the
panic. -/
def SendMessage {Time : Type} (b : Bot) (chinaLoc : Option (Time → String))
    (sendErr : Nat → Bool) (title url group : String) (pubDate : Time)
    (matchedKeywords : List String) : Option (List Delivery × Option String) :=
  match chinaLoc with
  | none => none
  | some formatChina =>
    let text := messageText title url group (formatChina pubDate) matchedKeywords
    some (sendToUsers text sendErr b.users 0
      ++ sendToChannels text sendErr b.channels b.users.length, none)

/-! ## Vocabulary of the properties -/

/-- Whether an effect is a call of `b.config.Save`. -/
def Effect.isSave : Effect → Bool
  | .save _ => true
  | _ => false

/-- Whether an entry of the trace of `SendMessage` is a send attempt. -/
def Delivery.isAttempt : Delivery → Bool
  | .toUser _ _ => true
  | .toChannel _ _ => true
  | .increment => false

/-- For `strconv.Atoi`, `text` is an integer in `[1, N]`: the test that
`edit_index` and `delete` make (bot.go 270, 279), negated. -/
def validIndex (text : String) (N : Nat) : Prop :=
  (Atoi text).2 = none ∧ 1 ≤ (Atoi text).1 ∧ (Atoi text).1 ≤ N

instance (text : String) (N : Nat) : Decidable (validIndex text N) :=
  inferInstanceAs (Decidable ((Atoi text).2 = none ∧ 1 ≤ (Atoi text).1 ∧ (Atoi text).1 ≤ N))

/-- The calls of `handleUserInput` that reach `b.config.Save`: state
`add_group`, a state with the prefix `edit_group_`, and state `delete` with a
valid index. -/
def commitPoint (b : Bot) (userID : Int) (text : String) : Prop :=
  b.state userID = "add_group" ∨ HasPrefix (b.state userID) "edit_group_" = true
    ∨ (b.state userID = "delete" ∧ validIndex text b.config.RSS.length)

instance (b : Bot) (userID : Int) (text : String) : Decidable (commitPoint b userID text) :=
  inferInstanceAs (Decidable (b.state userID = "add_group"
    ∨ HasPrefix (b.state userID) "edit_group_" = true
    ∨ (b.state userID = "delete" ∧ validIndex text b.config.RSS.length)))

/-- What can be compared of the result of a call: the subscription list, the
state entry of one user, and the effects. -/
def observe (userID : Int) (r : Option (Bot × List Effect)) :
    Option (List RSSConfig × Option String × List Effect) :=
  r.map (fun p => (p.1.config.RSS, p.1.userState userID, p.2))

/-- A bot with no subscription and no open dialog. -/
def emptyBot : Bot :=
  { users := [11, 12]
    channels := ["@news"]
    config := { RSS := [] }
    userState := fun _ => none }

/-- A bot with three subscriptions and no open dialog. -/
def exampleBot : Bot :=
  { users := [11, 12]
    channels := ["@news"]
    config :=
      { RSS := [⟨"http://a/feed", 60, ["go"], "tech"⟩, ⟨"http://b/feed", 300, [], "news"⟩,
          ⟨"http://c/feed", 120, ["x", "y"], "misc"⟩] }
    userState := fun _ => none }

/-- Answers of the collaborators in which `Save` succeeds and `config.Load`
reads the list `rss`. -/
def answers (rss : List RSSConfig) : Answers :=
  { saveErr := false, load := .ok { RSS := rss }, counts := (0, 0) }

/-- The tokens the handlers store in `b.userState`: the six fixed ones, and
`edit_<step>_<k>` for a step of the edit session and an index `k` that is a
Go `int` and not negative. -/
def storedToken (t : String) : Prop :=
  t = "add_url" ∨ t = "add_interval" ∨ t = "add_keywords" ∨ t = "add_group" ∨
  t = "edit_index" ∨ t = "delete" ∨
  ∃ k : Nat, (k : Int) ≤ maxInt ∧
    (t = "edit_url_" ++ formatInt k ∨ t = "edit_interval_" ++ formatInt k ∨
      t = "edit_keywords_" ++ formatInt k ∨ t = "edit_group_" ++ formatInt k)

/-- The date and the clock of a `time.Time` in its location, as `Time.Date`
and `Time.Clock` return them. -/
structure Civil where
  year : Int
  month : Nat
  day : Nat
  hour : Nat
  minute : Nat
  second : Nat
  deriving DecidableEq, Repr

/-- The function `appendInt` of Go's package `time`: the decimal digits of
`x`, zero-padded on the left to `width` digits, after a `-` when `x` is
negative. -/
def appendInt (x : Int) (width : Nat) : String :=
  ⟨(if x < 0 then ['-'] else [])
    ++ List.replicate (width - (natDigits (x.natAbs + 1) x.natAbs).length) '0'
    ++ natDigits (x.natAbs + 1) x.natAbs⟩

/-- `Time.Format("2006-01-02 15:04:05")` on the date and clock of the time:
the layout's fields are year (width 4), month, day, hour, minute and second
(width 2 each), each written by `appendInt`. -/
def formatLayout (t : Civil) : String :=
  appendInt t.year 4 ++ "-" ++ appendInt t.month 2 ++ "-" ++ appendInt t.day 2 ++ " "
    ++ appendInt t.hour 2 ++ ":" ++ appendInt t.minute 2 ++ ":" ++ appendInt t.second 2

/-! ## Lemmas on the library functions -/

theorem digitVal_ofNat (d : Nat) (h : d < 10) : digitVal (Char.ofNat (48 + d)) = some d := by
  interval_cases d <;> rfl

theorem digit_not_sign (d : Nat) (h : d < 10) :
    (Char.ofNat (48 + d) == '+') = false ∧ (Char.ofNat (48 + d) == '-') = false := by
  interval_cases d <;> exact ⟨rfl, rfl⟩

theorem parseUintLoop_append (xs : List Char) (c : Char) (n : Nat) :
    parseUintLoop (xs ++ [c]) n =
      match parseUintLoop xs n with
      | .ok m => parseUintLoop [c] m
      | .error e => .error e := by
  induction xs generalizing n with
  | nil => simp [parseUintLoop]
  | cons x xs ih =>
    simp only [List.cons_append, parseUintLoop]
    cases digitVal x with
    | none => simp
    | some d =>
      simp only
      split
      · simp
      · exact ih _

theorem parseUintLoop_natDigits (fuel n : Nat) (h : n < fuel) (hmax : n ≤ maxUint64) :
    parseUintLoop (natDigits fuel n) 0 = .ok n := by
  induction fuel generalizing n with
  | zero => omega
  | succ fuel ih =>
    unfold natDigits
    split
    · rename_i h10
      simp [parseUintLoop, digitVal_ofNat n h10]
      unfold maxUint64; omega
    · rename_i h10
      rw [parseUintLoop_append, ih (n / 10) (by omega) (by omega)]
      simp only [parseUintLoop, digitVal_ofNat (n % 10) (Nat.mod_lt _ (by norm_num))]
      have : n / 10 * 10 + n % 10 = n := by omega
      rw [this]
      simp [Nat.not_lt.mpr hmax]

theorem natDigits_head (fuel n : Nat) :
    ∃ d rest, d < 10 ∧ natDigits (fuel + 1) n = Char.ofNat (48 + d) :: rest := by
  induction fuel generalizing n with
  | zero =>
    unfold natDigits
    split
    · rename_i h; exact ⟨n, [], h, rfl⟩
    · exact ⟨n % 10, [], Nat.mod_lt _ (by norm_num), by simp [natDigits]⟩
  | succ fuel ih =>
    unfold natDigits
    split
    · rename_i h; exact ⟨n, [], h, rfl⟩
    · obtain ⟨d, rest, hd, hr⟩ := ih (n / 10)
      exact ⟨d, rest ++ [Char.ofNat (48 + n % 10)], hd, by rw [hr]; rfl⟩

theorem Atoi_formatInt (k : Int) (h0 : 0 ≤ k) (h1 : k ≤ maxInt) :
    Atoi (formatInt k) = (k, none) := by
  obtain ⟨n, rfl⟩ := Int.eq_ofNat_of_zero_le h0
  have hn : n < 2 ^ 63 := by unfold maxInt at h1; omega
  obtain ⟨d, rest, hd, hr⟩ := natDigits_head n n
  have hp := parseUintLoop_natDigits (n + 1) n (by omega) (by unfold maxUint64; omega)
  have hs := digit_not_sign d hd
  simp only [Atoi, formatInt, Int.natAbs_ofNat]
  rw [if_neg (by omega)]
  simp only
  rw [hr] at hp ⊢
  simp only [ParseInt, ParseUint, hs.1, hs.2, Bool.false_eq_true, or_self, if_false]
  rw [hp]
  simp only [ge_iff_le, not_false_eq_true, true_and, false_and, if_false]
  rw [if_neg (by omega)]

theorem Atoi_le_maxInt (s : String) (i : Int) (h : Atoi s = (i, none)) : i ≤ maxInt := by
  unfold Atoi ParseInt at h
  split at h
  · simp at h
  · simp only at h
    split at h
    · simp at h
    · simp at h
    · split at h
      · simp at h
      · split at h
        · simp at h
        · rename_i un _ h1 h2
          simp only [Prod.mk.injEq, and_true] at h
          subst h
          unfold maxInt
          split <;> simp_all <;> omega

theorem index?_append_last {α : Type} (l : List α) (r : α) :
    index? (l ++ [r]) (((l ++ [r]).length : Int) - 1) = some r := by
  simp [index?]

theorem update?_append_last {α : Type} (l : List α) (r : α) (f : α → α) :
    update? (l ++ [r]) (((l ++ [r]).length : Int) - 1) f = some (l ++ [f r]) := by
  unfold update?
  rw [index?_append_last]
  simp only [List.length_append, List.length_singleton, Nat.cast_add, Nat.cast_one]
  have : ((l.length : Int) + 1 - 1).toNat = l.length := by omega
  rw [this]; simp

/-! ## The state tokens of an edit session -/

theorem edit_url_token (x : String) :
    "edit_url_" ++ x ≠ "add_url" ∧ "edit_url_" ++ x ≠ "add_interval" ∧
    "edit_url_" ++ x ≠ "add_keywords" ∧ "edit_url_" ++ x ≠ "add_group" ∧
    "edit_url_" ++ x ≠ "edit_index" ∧ "edit_url_" ++ x ≠ "delete" ∧
    HasPrefix ("edit_url_" ++ x) "edit_url_" = true ∧
    TrimPrefix ("edit_url_" ++ x) "edit_url_" = x := by
  simp [String.ext_iff, HasPrefix, TrimPrefix, List.isPrefixOf]

theorem edit_interval_token (x : String) :
    "edit_interval_" ++ x ≠ "add_url" ∧ "edit_interval_" ++ x ≠ "add_interval" ∧
    "edit_interval_" ++ x ≠ "add_keywords" ∧ "edit_interval_" ++ x ≠ "add_group" ∧
    "edit_interval_" ++ x ≠ "edit_index" ∧ "edit_interval_" ++ x ≠ "delete" ∧
    HasPrefix ("edit_interval_" ++ x) "edit_url_" = false ∧
    HasPrefix ("edit_interval_" ++ x) "edit_interval_" = true ∧
    TrimPrefix ("edit_interval_" ++ x) "edit_interval_" = x := by
  simp [String.ext_iff, HasPrefix, TrimPrefix, List.isPrefixOf]

theorem edit_keywords_token (x : String) :
    "edit_keywords_" ++ x ≠ "add_url" ∧ "edit_keywords_" ++ x ≠ "add_interval" ∧
    "edit_keywords_" ++ x ≠ "add_keywords" ∧ "edit_keywords_" ++ x ≠ "add_group" ∧
    "edit_keywords_" ++ x ≠ "edit_index" ∧ "edit_keywords_" ++ x ≠ "delete" ∧
    HasPrefix ("edit_keywords_" ++ x) "edit_url_" = false ∧
    HasPrefix ("edit_keywords_" ++ x) "edit_interval_" = false ∧
    HasPrefix ("edit_keywords_" ++ x) "edit_keywords_" = true ∧
    TrimPrefix ("edit_keywords_" ++ x) "edit_keywords_" = x := by
  simp [String.ext_iff, HasPrefix, TrimPrefix, List.isPrefixOf]

theorem edit_group_token (x : String) :
    "edit_group_" ++ x ≠ "add_url" ∧ "edit_group_" ++ x ≠ "add_interval" ∧
    "edit_group_" ++ x ≠ "add_keywords" ∧ "edit_group_" ++ x ≠ "add_group" ∧
    "edit_group_" ++ x ≠ "edit_index" ∧ "edit_group_" ++ x ≠ "delete" ∧
    HasPrefix ("edit_group_" ++ x) "edit_url_" = false ∧
    HasPrefix ("edit_group_" ++ x) "edit_interval_" = false ∧
    HasPrefix ("edit_group_" ++ x) "edit_keywords_" = false ∧
    HasPrefix ("edit_group_" ++ x) "edit_group_" = true ∧
    TrimPrefix ("edit_group_" ++ x) "edit_group_" = x := by
  simp [String.ext_iff, HasPrefix, TrimPrefix, List.isPrefixOf]

/-! ## Lemmas on the bot record -/

@[simp] theorem state_setState (b : Bot) (u : Int) (t : String) : (b.setState u t).state u = t := by
  simp [Bot.state, Bot.setState]

@[simp] theorem config_setState (b : Bot) (u : Int) (t : String) :
    (b.setState u t).config = b.config := rfl

@[simp] theorem config_deleteState (b : Bot) (u : Int) : (b.deleteState u).config = b.config := rfl

@[simp] theorem RSS_setRSS (b : Bot) (l : List RSSConfig) : (b.setRSS l).config.RSS = l := rfl

@[simp] theorem state_setRSS (b : Bot) (l : List RSSConfig) (u : Int) :
    (b.setRSS l).state u = b.state u := rfl

@[simp] theorem userState_setRSS (b : Bot) (l : List RSSConfig) :
    (b.setRSS l).userState = b.userState := rfl

@[simp] theorem userState_deleteState (b : Bot) (u : Int) : (b.deleteState u).userState u = none := by
  simp [Bot.deleteState]

theorem state_of_userState (b : Bot) (u : Int) (t : String) (h : b.userState u = some t) :
    b.state u = t := by
  simp [Bot.state, h]

/-! ## What one call of `handleUserInput` does, state by state -/

theorem step_add_url (b : Bot) (e : Bool) (u c : Int) (text : String)
    (h : b.state u = "add_url") :
    handleUserInput b e u c text =
      some ((b.setState u "add_interval").setRSS
          (b.config.RSS ++ [{ URL := text, Interval := 0, Keywords := [], Group := "" }]),
        [.send c "请输入订阅的更新间隔（秒）："]) := by
  simp only [handleUserInput, h, if_true, config_setState]

theorem step_add_interval (b : Bot) (e : Bool) (u c : Int) (text : String) (n : Int)
    (l : List RSSConfig) (r : RSSConfig)
    (h : b.state u = "add_interval") (ht : Atoi text = (n, none)) (hl : b.config.RSS = l ++ [r]) :
    handleUserInput b e u c text =
      some ((b.setRSS (l ++ [{ r with Interval := n }])).setState u "add_keywords",
        [.send c "请输入关键词（用逗号分隔，如果没有可以直接输入1）："]) := by
  simp [handleUserInput, h, ht, hl]
  have := update?_append_last l r (fun r => { r with Interval := n })
  simp at this
  simp [this]

theorem step_add_keywords (b : Bot) (e : Bool) (u c : Int) (text : String)
    (l : List RSSConfig) (r : RSSConfig)
    (h : b.state u = "add_keywords") (hl : b.config.RSS = l ++ [r]) :
    handleUserInput b e u c text =
      some ((b.setRSS (l ++ [if text = "1" then r else { r with Keywords := Split text }])).setState
          u "add_group",
        [.send c "请输入组名："]) := by
  have := update?_append_last l r (fun r => { r with Keywords := Split text })
  simp at this
  by_cases ht : text = "1"
  · simp [handleUserInput, h, ht, hl, Bot.setRSS]
  · simp [handleUserInput, h, ht, hl, this]

theorem step_add_group (b : Bot) (e : Bool) (u c : Int) (text : String)
    (l : List RSSConfig) (r : RSSConfig)
    (h : b.state u = "add_group") (hl : b.config.RSS = l ++ [r]) :
    handleUserInput b e u c text =
      some ((b.setRSS (l ++ [{ r with Group := text }])).deleteState u,
        commit (l ++ [{ r with Group := text }]) e c
          "添加订阅成功，但保存配置失败。" "成功添加RSS订阅。") := by
  have := update?_append_last l r (fun r => { r with Group := text })
  simp at this
  simp [handleUserInput, h, hl, this]

theorem step_edit_url (b : Bot) (e : Bool) (u c : Int) (text : String) (k : Nat) (r : RSSConfig)
    (h : b.state u = "edit_url_" ++ formatInt k) (hk : (k : Int) ≤ maxInt)
    (hr : b.config.RSS[k]? = some r) :
    handleUserInput b e u c text =
      some ((b.setRSS (if text = "1" then b.config.RSS
            else b.config.RSS.set k { r with URL := text })).setState u
          ("edit_interval_" ++ formatInt k),
        [.send c ("当前间隔为：" ++ formatInt r.Interval
          ++ "秒\n请输入新的间隔时间（秒）（如不修改请输入1）：")]) := by
  obtain ⟨h1, h2, h3, h4, h5, h6, h7, h8⟩ := edit_url_token (formatInt k)
  have ha := Atoi_formatInt k (by omega) hk
  have hlt : k < b.config.RSS.length := by
    by_contra hc
    rw [List.getElem?_eq_none (by omega)] at hr
    simp at hr
  by_cases ht : text = "1"
  · simp [handleUserInput, h, h1, h2, h3, h4, h5, h6, h7, h8, ha, ht, index?, update?, hr]
  · simp [handleUserInput, h, h1, h2, h3, h4, h5, h6, h7, h8, ha, ht, index?, update?, hr, hlt]

theorem lt_length_of_getElem? {α : Type} (l : List α) (k : Nat) (r : α) (hr : l[k]? = some r) :
    k < l.length := by
  by_contra hc
  rw [List.getElem?_eq_none (by omega)] at hr
  simp at hr

theorem step_edit_interval_keep (b : Bot) (e : Bool) (u c : Int) (k : Nat) (r : RSSConfig)
    (h : b.state u = "edit_interval_" ++ formatInt k) (hk : (k : Int) ≤ maxInt)
    (hr : b.config.RSS[k]? = some r) :
    handleUserInput b e u c "1" =
      some ((b.setRSS b.config.RSS).setState u ("edit_keywords_" ++ formatInt k),
        [.send c ("当前关键词为：" ++ formatStrings r.Keywords
          ++ "\n请输入新的关键词（用逗号分隔，如不修改请输入1）：")]) := by
  obtain ⟨h1, h2, h3, h4, h5, h6, h7, h8, h9⟩ := edit_interval_token (formatInt k)
  have ha := Atoi_formatInt k (by omega) hk
  simp [handleUserInput, h, h1, h2, h3, h4, h5, h6, h7, h8, h9, ha, index?, hr]

theorem step_edit_keywords (b : Bot) (e : Bool) (u c : Int) (text : String) (k : Nat)
    (r : RSSConfig)
    (h : b.state u = "edit_keywords_" ++ formatInt k) (hk : (k : Int) ≤ maxInt)
    (hr : b.config.RSS[k]? = some r) :
    handleUserInput b e u c text =
      some ((b.setRSS (if text = "1" then b.config.RSS
            else b.config.RSS.set k { r with Keywords := Split text })).setState u
          ("edit_group_" ++ formatInt k),
        [.send c ("当前组名为：" ++ r.Group ++ "\n请输入新的组名（如不修改请输入1）：")]) := by
  obtain ⟨h1, h2, h3, h4, h5, h6, h7, h8, h9, h10⟩ := edit_keywords_token (formatInt k)
  have ha := Atoi_formatInt k (by omega) hk
  have hlt := lt_length_of_getElem? _ _ _ hr
  by_cases ht : text = "1"
  · simp [handleUserInput, h, h1, h2, h3, h4, h5, h6, h7, h8, h9, h10, ha, ht, index?, update?, hr]
  · simp [handleUserInput, h, h1, h2, h3, h4, h5, h6, h7, h8, h9, h10, ha, ht, index?, update?, hr,
      hlt]

theorem step_edit_group (b : Bot) (e : Bool) (u c : Int) (text : String) (k : Nat)
    (r : RSSConfig)
    (h : b.state u = "edit_group_" ++ formatInt k) (hk : (k : Int) ≤ maxInt)
    (hr : b.config.RSS[k]? = some r) :
    handleUserInput b e u c text =
      some ((b.setRSS (if text = "1" then b.config.RSS
            else b.config.RSS.set k { r with Group := text })).deleteState u,
        commit (if text = "1" then b.config.RSS else b.config.RSS.set k { r with Group := text })
          e c "编辑订阅成功，但保存配置失败。" "成功编辑RSS订阅。") := by
  obtain ⟨h1, h2, h3, h4, h5, h6, h7, h8, h9, h10, h11⟩ := edit_group_token (formatInt k)
  have ha := Atoi_formatInt k (by omega) hk
  by_cases ht : text = "1"
  · simp [handleUserInput, h, h1, h2, h3, h4, h5, h6, h7, h8, h9, h10, h11, ha, ht]
  · simp [handleUserInput, h, h1, h2, h3, h4, h5, h6, h7, h8, h9, h10, h11, ha, ht, index?,
      update?, hr]

theorem step_edit_index (b : Bot) (e : Bool) (u c : Int) (text : String) (i : Int)
    (r : RSSConfig) (h : b.state u = "edit_index") (ht : Atoi text = (i, none)) (h1 : 1 ≤ i)
    (hr : b.config.RSS[(i - 1).toNat]? = some r) :
    handleUserInput b e u c text =
      some (b.setState u ("edit_url_" ++ formatInt (i - 1)),
        [.send c ("当前URL为：" ++ r.URL ++ "\n请输入新的URL（如不修改请输入1）：")]) := by
  have hlt := lt_length_of_getElem? _ _ _ hr
  have hN : ¬ (i > b.config.RSS.length) := by omega
  have hr' : b.config.RSS[i.toNat - 1]? = some r := by
    rwa [show i.toNat - 1 = (i - 1).toNat by omega]
  simp [handleUserInput, h, ht, index?, hr', h1, hN, not_lt.mpr h1]

theorem step_delete (b : Bot) (e : Bool) (u c : Int) (text : String) (i : Int)
    (r : RSSConfig) (h : b.state u = "delete") (ht : Atoi text = (i, none)) (h1 : 1 ≤ i)
    (hr : b.config.RSS[(i - 1).toNat]? = some r) :
    handleUserInput b e u c text =
      some ((b.setRSS (b.config.RSS.eraseIdx (i - 1).toNat)).deleteState u,
        commit (b.config.RSS.eraseIdx (i - 1).toNat) e c "删除订阅成功，但保存配置失败。"
          ("成功删除订阅: " ++ r.URL)) := by
  have hlt := lt_length_of_getElem? _ _ _ hr
  have hN : ¬ (i > b.config.RSS.length) := by omega
  have hr' : b.config.RSS[i.toNat - 1]? = some r := by
    rwa [show i.toNat - 1 = (i - 1).toNat by omega]
  have hi : i.toNat - 1 + 1 = i.toNat := by omega
  simp [handleUserInput, h, ht, index?, hr', h1, hN, not_lt.mpr h1,
    List.eraseIdx_eq_take_drop_succ, hi]

theorem step_invalid_index (b : Bot) (e : Bool) (u c : Int) (text : String)
    (hbad : ¬ ((Atoi text).2 = none ∧ 1 ≤ (Atoi text).1 ∧ (Atoi text).1 ≤ b.config.RSS.length)) :
    (b.state u = "edit_index" → handleUserInput b e u c text =
      some (b.deleteState u, [.send c "无效的编号。请使用 /edit 重新开始。"])) ∧
    (b.state u = "delete" → handleUserInput b e u c text =
      some (b.deleteState u, [.send c "无效的编号。请使用 /delete 重新开始。"])) := by
  have hc : ((Atoi text).2.isSome = true ∨ (Atoi text).1 < 1
      ∨ (Atoi text).1 > b.config.RSS.length) := by
    by_contra hcon
    apply hbad
    simp only [not_or, Option.not_isSome_iff_eq_none, not_lt, gt_iff_lt] at hcon
    exact hcon
  constructor <;> intro h <;> simp [handleUserInput, h, hc]

/-! ## The shape of the effects of one call -/

theorem prefix_decomp (s pre : String) (h : HasPrefix s pre = true) :
    s = pre ++ TrimPrefix s pre := by
  have h' := h
  unfold HasPrefix at h'
  rw [List.isPrefixOf_iff_prefix] at h'
  obtain ⟨t, ht⟩ := h'
  apply String.ext
  simp [TrimPrefix, h, ← ht]

theorem prefix_exclusive (s : String) :
    (HasPrefix s "edit_url_" = true → HasPrefix s "edit_group_" = false) ∧
    (HasPrefix s "edit_interval_" = true → HasPrefix s "edit_group_" = false) ∧
    (HasPrefix s "edit_keywords_" = true → HasPrefix s "edit_group_" = false) := by
  refine ⟨fun h => ?_, fun h => ?_, fun h => ?_⟩ <;>
    (rw [prefix_decomp s _ h]; simp [HasPrefix, List.isPrefixOf])

theorem count_commit (rss : List RSSConfig) (e : Bool) (c : Int) (x y : String) :
    (commit rss e c x y).countP Effect.isSave = 1 ∧
    (commit rss e c x y).count .updateRSS = if e then 0 else 1 := by
  cases e <;> simp [commit, Effect.isSave, List.countP_cons]


theorem effects_shape (b : Bot) (e : Bool) (u c : Int) (text : String) (b1 : Bot)
    (m : List Effect) (h : handleUserInput b e u c text = some (b1, m)) :
    (commitPoint b u text ∧ ∃ x y, m = commit b1.config.RSS e c x y) ∨
    (¬ commitPoint b u text ∧ (m = [] ∨ ∃ msg, m = [.send c msg])) := by
  obtain ⟨p1, p2, p3⟩ := prefix_exclusive (b.state u)
  by_cases h1 : b.state u = "add_url"
  · right
    rw [step_add_url b e u c text h1] at h
    simp only [Option.some.injEq, Prod.mk.injEq] at h
    obtain ⟨_, rfl⟩ := h
    simp [commitPoint, h1, HasPrefix, List.isPrefixOf]
  by_cases h2 : b.state u = "add_interval"
  · right
    simp [handleUserInput, h2] at h
    split at h
    · simp only [Option.some.injEq, Prod.mk.injEq] at h
      obtain ⟨_, rfl⟩ := h
      simp [commitPoint, h2, HasPrefix, List.isPrefixOf]
    · split at h
      · simp at h
      · simp only [Option.some.injEq, Prod.mk.injEq] at h
        obtain ⟨_, rfl⟩ := h
        simp [commitPoint, h2, HasPrefix, List.isPrefixOf]
  by_cases h3 : b.state u = "add_keywords"
  · right
    simp [handleUserInput, h3] at h
    split at h
    · simp at h
    · simp only [Option.some.injEq, Prod.mk.injEq] at h
      obtain ⟨_, rfl⟩ := h
      simp [commitPoint, h3, HasPrefix, List.isPrefixOf]
  by_cases h4 : b.state u = "add_group"
  · left
    simp [handleUserInput, h4] at h
    split at h
    · simp at h
    · simp only [Option.some.injEq, Prod.mk.injEq] at h
      obtain ⟨rfl, rfl⟩ := h
      exact ⟨Or.inl h4, _, _, rfl⟩
  by_cases h5 : b.state u = "edit_index"
  · right
    simp [handleUserInput, h5] at h
    split at h
    · simp only [Option.some.injEq, Prod.mk.injEq] at h
      obtain ⟨_, rfl⟩ := h
      simp [commitPoint, h5, HasPrefix, List.isPrefixOf]
    · split at h
      · simp at h
      · simp only [Option.some.injEq, Prod.mk.injEq] at h
        obtain ⟨_, rfl⟩ := h
        simp [commitPoint, h5, HasPrefix, List.isPrefixOf]
  by_cases h6 : b.state u = "delete"
  · simp [handleUserInput, h6] at h
    split at h
    · right
      rename_i hbad
      simp only [Option.some.injEq, Prod.mk.injEq] at h
      obtain ⟨_, rfl⟩ := h
      simp [commitPoint, h6, HasPrefix, List.isPrefixOf, validIndex]
      intro hn hl
      rcases hbad with hb | hb | hb
      · simp [hn] at hb
      · omega
      · omega
    · left
      rename_i hok
      split at h
      · simp at h
      · simp only [Option.some.injEq, Prod.mk.injEq] at h
        obtain ⟨rfl, rfl⟩ := h
        refine ⟨Or.inr (Or.inr ⟨h6, ?_⟩), _, _, rfl⟩
        simp only [not_or, Option.not_isSome_iff_eq_none, not_lt, gt_iff_lt] at hok
        exact hok
  by_cases h7 : HasPrefix (b.state u) "edit_url_" = true
  · right
    have hg := p1 h7
    simp [handleUserInput, h1, h2, h3, h4, h5, h6, h7] at h
    split at h
    · simp at h
    · split at h
      · simp at h
      · simp only [Option.some.injEq, Prod.mk.injEq] at h
        obtain ⟨_, rfl⟩ := h
        simp [commitPoint, h4, h6, hg]
  by_cases h8 : HasPrefix (b.state u) "edit_interval_" = true
  · right
    have hg := p2 h8
    simp [handleUserInput, h1, h2, h3, h4, h5, h6, h7, h8] at h
    split at h
    · simp at h
    · simp only [Option.some.injEq, Prod.mk.injEq] at h
      obtain ⟨_, rfl⟩ := h
      simp [commitPoint, h4, h6, hg]
    · split at h
      · simp at h
      · simp only [Option.some.injEq, Prod.mk.injEq] at h
        obtain ⟨_, rfl⟩ := h
        simp [commitPoint, h4, h6, hg]
  by_cases h9 : HasPrefix (b.state u) "edit_keywords_" = true
  · right
    have hg := p3 h9
    simp [handleUserInput, h1, h2, h3, h4, h5, h6, h7, h8, h9] at h
    split at h
    · simp at h
    · split at h
      · simp at h
      · simp only [Option.some.injEq, Prod.mk.injEq] at h
        obtain ⟨_, rfl⟩ := h
        simp [commitPoint, h4, h6, hg]
  by_cases h10 : HasPrefix (b.state u) "edit_group_" = true
  · left
    simp [handleUserInput, h1, h2, h3, h4, h5, h6, h7, h8, h9, h10] at h
    split at h
    · simp at h
    · simp only [Option.some.injEq, Prod.mk.injEq] at h
      obtain ⟨rfl, rfl⟩ := h
      exact ⟨Or.inr (Or.inl h10), _, _, rfl⟩
  · right
    simp [handleUserInput, h1, h2, h3, h4, h5, h6, h7, h8, h9, h10] at h
    obtain ⟨_, rfl⟩ := h
    simp [commitPoint, h4, h6, h10]

theorem dispatch_edit_group (b : Bot) (u : Int) (h : HasPrefix (b.state u) "edit_group_" = true) :
    b.state u ≠ "add_url" ∧ b.state u ≠ "add_interval" ∧ b.state u ≠ "add_keywords" ∧
    b.state u ≠ "add_group" ∧ b.state u ≠ "edit_index" ∧ b.state u ≠ "delete" ∧
    HasPrefix (b.state u) "edit_url_" = false ∧ HasPrefix (b.state u) "edit_interval_" = false ∧
    HasPrefix (b.state u) "edit_keywords_" = false := by
  obtain ⟨h1, h2, h3, h4, h5, h6, h7, h8, h9, _, _⟩ :=
    edit_group_token (TrimPrefix (b.state u) "edit_group_")
  rw [← prefix_decomp _ _ h] at h1 h2 h3 h4 h5 h6 h7 h8 h9
  exact ⟨h1, h2, h3, h4, h5, h6, h7, h8, h9⟩

theorem commit_defined (b : Bot) (e : Bool) (u c : Int) (text : String) :
    (b.state u = "add_group" → b.config.RSS ≠ [] →
      ∃ b1 x y, handleUserInput b e u c text = some (b1, commit b1.config.RSS e c x y)) ∧
    (∀ k : Nat, b.state u = "edit_group_" ++ formatInt k → k < b.config.RSS.length →
      (k : Int) ≤ maxInt →
      ∃ b1 x y, handleUserInput b e u c text = some (b1, commit b1.config.RSS e c x y)) ∧
    (HasPrefix (b.state u) "edit_group_" = true → text = "1" →
      ∃ b1 x y, handleUserInput b e u c text = some (b1, commit b1.config.RSS e c x y)) ∧
    (b.state u = "delete" → validIndex text b.config.RSS.length →
      ∃ b1 x y, handleUserInput b e u c text = some (b1, commit b1.config.RSS e c x y)) := by
  refine ⟨fun h hne => ?_, fun k h hk hmax => ?_, fun h ht => ?_, fun h hv => ?_⟩
  · rcases List.eq_nil_or_concat b.config.RSS with hnil | ⟨l, r, hl⟩
    · exact absurd hnil hne
    · rw [List.concat_eq_append] at hl
      exact ⟨_, _, _, step_add_group b e u c text l r h hl⟩
  · have hr : b.config.RSS[k]? = some (b.config.RSS[k]) := List.getElem?_eq_getElem hk
    exact ⟨_, _, _, step_edit_group b e u c text k _ h hmax hr⟩
  · obtain ⟨h1, h2, h3, h4, h5, h6, h7, h8, h9⟩ := dispatch_edit_group b u h
    refine ⟨(b.setRSS b.config.RSS).deleteState u, "编辑订阅成功，但保存配置失败。",
      "成功编辑RSS订阅。", ?_⟩
    simp [handleUserInput, h1, h2, h3, h4, h5, h6, h7, h8, h9, h, ht]
  · obtain ⟨hn, h1, hN⟩ := hv
    have hlt : (Atoi text).1.toNat - 1 < b.config.RSS.length := by omega
    have hr : b.config.RSS[((Atoi text).1 - 1).toNat]? = some (b.config.RSS[(Atoi text).1.toNat - 1]) := by
      rw [show ((Atoi text).1 - 1).toNat = (Atoi text).1.toNat - 1 by omega]
      exact List.getElem?_eq_getElem hlt
    exact ⟨_, _, _, step_delete b e u c text _ _ h (Prod.ext rfl hn) h1 hr⟩

/-! ## The two loops of the broadcaster -/

theorem count_sendToUsers (text : String) (sendErr : Nat → Bool) (users : List Int) (k : Nat) :
    (sendToUsers text sendErr users k).count .increment
      + ((List.range' k users.length).filter sendErr).length = users.length := by
  induction users generalizing k with
  | nil => simp [sendToUsers]
  | cons userID rest ih =>
    have := ih (k + 1)
    simp only [sendToUsers, List.length_cons, List.range'_succ, List.filter_cons,
      List.count_append]
    cases h : sendErr k <;> simp [List.count_cons] <;> omega

theorem count_sendToChannels (text : String) (sendErr : Nat → Bool) (channels : List String)
    (k : Nat) :
    (sendToChannels text sendErr channels k).count .increment
      + ((List.range' k channels.length).filter sendErr).length = channels.length := by
  induction channels generalizing k with
  | nil => simp [sendToChannels]
  | cons channel rest ih =>
    have := ih (k + 1)
    simp only [sendToChannels, List.length_cons, List.range'_succ, List.filter_cons,
      List.count_append]
    cases h : sendErr k <;> simp [List.count_cons] <;> omega

theorem attempts_sendToUsers (text : String) (sendErr : Nat → Bool) (users : List Int) (k : Nat) :
    (sendToUsers text sendErr users k).filter Delivery.isAttempt
      = users.map (fun userID => Delivery.toUser userID text) := by
  induction users generalizing k with
  | nil => simp [sendToUsers]
  | cons userID rest ih =>
    simp only [sendToUsers, List.filter_append, ih, List.map_cons]
    cases sendErr k <;> simp [Delivery.isAttempt]

theorem attempts_sendToChannels (text : String) (sendErr : Nat → Bool) (channels : List String)
    (k : Nat) :
    (sendToChannels text sendErr channels k).filter Delivery.isAttempt
      = channels.map (fun channel => Delivery.toChannel channel text) := by
  induction channels generalizing k with
  | nil => simp [sendToChannels]
  | cons channel rest ih =>
    simp only [sendToChannels, List.filter_append, ih, List.map_cons]
    cases sendErr k <;> simp [Delivery.isAttempt]

/-! ## The claims -/

/-- C1. From state `add_url`, the four texts `u`, `t`, `k`, `g` in a row, where
`strconv.Atoi` parses `t` to `n` and the save of the fourth step succeeds:
every step completes, the list ends as the initial list with the one record
(`u`, `n`, no keywords if `k` is "1" and `k` split on "," otherwise, `g`)
appended, the callback is invoked in none of the first three steps and exactly
once in the fourth, and the state entry of the user is removed. -/
theorem add_dialog_appends_one_record (b : Bot) (userID c1 c2 c3 c4 : Int) (u t k g : String)
    (n : Int) (e1 e2 e3 : Bool)
    (hstate : b.userState userID = some "add_url") (ht : Atoi t = (n, none)) :
    ∃ b1 b2 b3 b4 m1 m2 m3 m4,
      handleUserInput b e1 userID c1 u = some (b1, m1) ∧
      handleUserInput b1 e2 userID c2 t = some (b2, m2) ∧
      handleUserInput b2 e3 userID c3 k = some (b3, m3) ∧
      handleUserInput b3 false userID c4 g = some (b4, m4) ∧
      b4.config.RSS = b.config.RSS ++
        [{ URL := u, Interval := n, Keywords := if k = "1" then [] else Split k, Group := g }] ∧
      m1.count .updateRSS = 0 ∧ m2.count .updateRSS = 0 ∧ m3.count .updateRSS = 0 ∧
      m4.count .updateRSS = 1 ∧
      b4.userState userID = none := by
  have h0 := state_of_userState b userID _ hstate
  have s1 := step_add_url b e1 userID c1 u h0
  have s2 := step_add_interval
    ((b.setState userID "add_interval").setRSS (b.config.RSS ++ [(⟨u, 0, [], ""⟩ : RSSConfig)]))
    e2 userID c2 t n b.config.RSS (⟨u, 0, [], ""⟩ : RSSConfig) (by simp) ht rfl
  have s3 := step_add_keywords
    ((((b.setState userID "add_interval").setRSS
      (b.config.RSS ++ [(⟨u, 0, [], ""⟩ : RSSConfig)])).setRSS
      (b.config.RSS ++ [(⟨u, n, [], ""⟩ : RSSConfig)])).setState userID "add_keywords")
    e3 userID c3 k b.config.RSS (⟨u, n, [], ""⟩ : RSSConfig) (by simp) rfl
  have s4 := step_add_group
    ((((((b.setState userID "add_interval").setRSS
      (b.config.RSS ++ [(⟨u, 0, [], ""⟩ : RSSConfig)])).setRSS
      (b.config.RSS ++ [(⟨u, n, [], ""⟩ : RSSConfig)])).setState userID "add_keywords").setRSS
      (b.config.RSS ++ [if k = "1" then (⟨u, n, [], ""⟩ : RSSConfig)
        else (⟨u, n, Split k, ""⟩ : RSSConfig)])).setState userID "add_group")
    false userID c4 g b.config.RSS
    (if k = "1" then (⟨u, n, [], ""⟩ : RSSConfig) else (⟨u, n, Split k, ""⟩ : RSSConfig))
    (by simp) rfl
  refine ⟨_, _, _, _, _, _, _, _, s1, s2, s3, s4, ?_, ?_, ?_, ?_, ?_, ?_⟩
  · by_cases hk : k = "1" <;> simp [hk]
  · simp
  · simp
  · simp
  · simp [commit]
  · simp

/-- C1, at a concrete input: after `/add`, the texts "http://x/feed", "300",
"go,rust" and "tech" leave the one record they describe. -/
theorem add_dialog_appends_one_record_witness :
    ∃ b1 b2 b3 b4 m1 m2 m3 m4,
      handleUserInput (handleAdd emptyBot 5 7).1 false 7 5 "http://x/feed" = some (b1, m1) ∧
      handleUserInput b1 false 7 5 "300" = some (b2, m2) ∧
      handleUserInput b2 false 7 5 "go,rust" = some (b3, m3) ∧
      handleUserInput b3 false 7 5 "tech" = some (b4, m4) ∧
      b4.config.RSS = [⟨"http://x/feed", 300, ["go", "rust"], "tech"⟩] ∧
      m4.count .updateRSS = 1 ∧ b4.userState 7 = none := by
  obtain ⟨b1, b2, b3, b4, m1, m2, m3, m4, h1, h2, h3, h4, hrss, _, _, _, hcb, hst⟩ :=
    add_dialog_appends_one_record (handleAdd emptyBot 5 7).1 7 5 5 5 5 "http://x/feed" "300"
      "go,rust" "tech" 300 false false false rfl (by decide)
  exact ⟨b1, b2, b3, b4, m1, m2, m3, m4, h1, h2, h3, h4, by rw [hrss]; decide, hcb, hst⟩

/-- C2. An edit session that starts in state `edit_index` with a text that
`strconv.Atoi` parses to `i` in `[1, N]` and then receives "1" at each of the
four steps: every step completes, the list is after every step what it was
before the session (so record `i` is), for every outcome of the save the one
list handed to `Save` is that list, and the state entry of the user is
removed. -/
theorem edit_session_all_keep_unchanged (b : Bot) (userID c0 c1 c2 c3 c4 : Int) (t : String)
    (i : Int) (e0 e1 e2 e3 e4 : Bool)
    (hstate : b.userState userID = some "edit_index")
    (ht : Atoi t = (i, none)) (h1 : 1 ≤ i) (hN : i ≤ b.config.RSS.length) :
    ∃ b0 b1 b2 b3 b4 m0 m1 m2 m3 m4,
      handleUserInput b e0 userID c0 t = some (b0, m0) ∧
      handleUserInput b0 e1 userID c1 "1" = some (b1, m1) ∧
      handleUserInput b1 e2 userID c2 "1" = some (b2, m2) ∧
      handleUserInput b2 e3 userID c3 "1" = some (b3, m3) ∧
      handleUserInput b3 e4 userID c4 "1" = some (b4, m4) ∧
      b0.config.RSS = b.config.RSS ∧ b1.config.RSS = b.config.RSS ∧
      b2.config.RSS = b.config.RSS ∧ b3.config.RSS = b.config.RSS ∧
      b4.config.RSS = b.config.RSS ∧
      index? b4.config.RSS (i - 1) = index? b.config.RSS (i - 1) ∧
      (∀ l, Effect.save l ∈ m0 ++ m1 ++ m2 ++ m3 ++ m4 → l = b.config.RSS) ∧
      b4.userState userID = none := by
  have h0 := state_of_userState b userID _ hstate
  obtain ⟨k, rfl⟩ : ∃ k : Nat, i = (k : Int) + 1 := ⟨(i - 1).toNat, by omega⟩
  have hklt : k < b.config.RSS.length := by omega
  have hmax : ((k : Int) + 1) ≤ maxInt := Atoi_le_maxInt t _ ht
  have hk : (k : Int) ≤ maxInt := by omega
  have hr : b.config.RSS[k]? = some (b.config.RSS[k]) := List.getElem?_eq_getElem hklt
  have hik : (k : Int) + 1 - 1 = k := by omega
  have s0 := step_edit_index b e0 userID c0 t _ b.config.RSS[k] h0 ht h1 (by simp)
  rw [hik] at s0
  have s1 := step_edit_url (b.setState userID ("edit_url_" ++ formatInt k)) e1 userID c1 "1" k
    b.config.RSS[k] (by simp) hk hr
  simp only [if_true, config_setState] at s1
  have s2 := step_edit_interval_keep
    (((b.setState userID ("edit_url_" ++ formatInt k)).setRSS b.config.RSS).setState userID
      ("edit_interval_" ++ formatInt k)) e2 userID c2 k b.config.RSS[k] (by simp) hk hr
  simp only [config_setState, RSS_setRSS] at s2
  have s3 := step_edit_keywords
    ((((b.setState userID ("edit_url_" ++ formatInt k)).setRSS b.config.RSS).setState userID
      ("edit_interval_" ++ formatInt k)).setRSS b.config.RSS |>.setState userID
      ("edit_keywords_" ++ formatInt k)) e3 userID c3 "1" k b.config.RSS[k] (by simp) hk hr
  simp only [if_true, config_setState, RSS_setRSS] at s3
  have s4 := step_edit_group
    (((((b.setState userID ("edit_url_" ++ formatInt k)).setRSS b.config.RSS).setState userID
      ("edit_interval_" ++ formatInt k)).setRSS b.config.RSS |>.setState userID
      ("edit_keywords_" ++ formatInt k)).setRSS b.config.RSS |>.setState userID
      ("edit_group_" ++ formatInt k)) e4 userID c4 "1" k b.config.RSS[k] (by simp) hk hr
  simp only [if_true, config_setState, RSS_setRSS] at s4
  refine ⟨_, _, _, _, _, _, _, _, _, _, s0, s1, s2, s3, s4, ?_, ?_, ?_, ?_, ?_, ?_, ?_, ?_⟩
  · simp
  · simp
  · simp
  · simp
  · simp
  · simp
  · intro l hl
    cases e4 <;> simp [commit] at hl <;> exact hl
  · simp

/-- C2, at a concrete input: after `/edit`, the texts "2", "1", "1", "1", "1"
with a failing save leave the three subscriptions as they were. -/
theorem edit_session_all_keep_unchanged_witness :
    ∃ b0 b1 b2 b3 b4 m0 m1 m2 m3 m4,
      handleUserInput (handleEdit exampleBot 5 7).1 false 7 5 "2" = some (b0, m0) ∧
      handleUserInput b0 false 7 5 "1" = some (b1, m1) ∧
      handleUserInput b1 false 7 5 "1" = some (b2, m2) ∧
      handleUserInput b2 false 7 5 "1" = some (b3, m3) ∧
      handleUserInput b3 true 7 5 "1" = some (b4, m4) ∧
      b4.config.RSS = exampleBot.config.RSS ∧ b4.userState 7 = none := by
  obtain ⟨b0, b1, b2, b3, b4, m0, m1, m2, m3, m4, h0, h1, h2, h3, h4, _, _, _, _, hrss, _, _,
      hst⟩ :=
    edit_session_all_keep_unchanged (handleEdit exampleBot 5 7).1 7 5 5 5 5 5 "2" 2 false false
      false false true rfl (by decide) (by decide) (by decide)
  exact ⟨b0, b1, b2, b3, b4, m0, m1, m2, m3, m4, h0, h1, h2, h3, h4, hrss, hst⟩

/-- C3. In state `edit_index` or `delete`, a text that `strconv.Atoi` rejects
or parses to an integer outside `[1, N]`: the call completes, the state entry
of the user is removed and no other entry changes, the list is unchanged, the
one effect is the message that asks to start again, and neither `Save` nor the
callback is called. -/
theorem invalid_index_clears_state (b : Bot) (e : Bool) (userID chatID : Int) (text : String)
    (hstate : b.userState userID = some "edit_index" ∨ b.userState userID = some "delete")
    (hbad : ¬ validIndex text b.config.RSS.length) :
    ∃ b1 m, handleUserInput b e userID chatID text = some (b1, m) ∧
      b1.userState userID = none ∧
      (∀ v, v ≠ userID → b1.userState v = b.userState v) ∧
      b1.config.RSS = b.config.RSS ∧
      (∃ msg, m = [.send chatID msg]) ∧
      (∀ l, Effect.save l ∉ m) ∧ Effect.updateRSS ∉ m := by
  obtain ⟨hE, hD⟩ := step_invalid_index b e userID chatID text hbad
  rcases hstate with h | h
  · refine ⟨_, _, hE (state_of_userState _ _ _ h), ?_, ?_, ?_, ⟨_, rfl⟩, ?_, ?_⟩ <;>
      simp [Bot.deleteState]
    intro v hv; simp [hv]
  · refine ⟨_, _, hD (state_of_userState _ _ _ h), ?_, ?_, ?_, ⟨_, rfl⟩, ?_, ?_⟩ <;>
      simp [Bot.deleteState]
    intro v hv; simp [hv]

/-- C3, at concrete inputs: with three subscriptions, "4" after `/delete`, and
with none, "1" after `/edit`. -/
theorem invalid_index_clears_state_witness :
    (∃ b1 m, handleUserInput (handleDelete exampleBot 5 7).1 false 7 5 "4" = some (b1, m) ∧
      b1.userState 7 = none ∧ b1.config.RSS = exampleBot.config.RSS ∧ Effect.updateRSS ∉ m) ∧
    (∃ b1 m, handleUserInput (handleEdit emptyBot 5 7).1 false 7 5 "1" = some (b1, m) ∧
      b1.userState 7 = none ∧ b1.config.RSS = [] ∧ Effect.updateRSS ∉ m) := by
  obtain ⟨b1, m, h, hst, _, hrss, _, _, hcb⟩ :=
    invalid_index_clears_state (handleDelete exampleBot 5 7).1 false 7 5 "4" (Or.inr rfl)
      (by decide)
  obtain ⟨b2, m2, h2, hst2, _, hrss2, _, _, hcb2⟩ :=
    invalid_index_clears_state (handleEdit emptyBot 5 7).1 false 7 5 "1" (Or.inl rfl)
      (by decide)
  exact ⟨⟨b1, m, h, hst, hrss, hcb⟩, ⟨b2, m2, h2, hst2, hrss2, hcb2⟩⟩

/-- C4, as stated, fails when the save fails: with three subscriptions, "2"
after `/delete` removes the second record and clears the state, but the one
message is the save-failed text, which does not name the URL of the removed
record, and the callback is not invoked. -/
theorem delete_save_failure_no_callback :
    observe 7 (handleUserInput (handleDelete exampleBot 5 7).1 true 7 5 "2") =
      some ([⟨"http://a/feed", 60, ["go"], "tech"⟩, ⟨"http://c/feed", 120, ["x", "y"], "misc"⟩],
        none,
        [.save [⟨"http://a/feed", 60, ["go"], "tech"⟩, ⟨"http://c/feed", 120, ["x", "y"], "misc"⟩],
          .send 5 "删除订阅成功，但保存配置失败。"]) ∧
    ((handleUserInput (handleDelete exampleBot 5 7).1 true 7 5 "2").map
      (fun p => p.2.count .updateRSS)) = some 0 := by
  decide

/-- C4, amended. In state `delete`, a text that `strconv.Atoi` parses to `i`
in `[1, N]`: the call completes, the list is the initial list without its
record `i` (1-based; the others in their order, length `N - 1`), the state
entry of the user is removed, and that list is handed to `Save` once.  When the
save succeeds the message names the URL of the removed record and the callback
is invoked exactly once; when the save fails the message is the save-failed
text and the callback is not invoked. -/
theorem delete_removes_record (b : Bot) (e : Bool) (userID chatID : Int) (text : String)
    (i : Int) (hstate : b.userState userID = some "delete")
    (ht : Atoi text = (i, none)) (h1 : 1 ≤ i) (hN : i ≤ b.config.RSS.length) :
    ∃ b1 m r, handleUserInput b e userID chatID text = some (b1, m) ∧
      index? b.config.RSS (i - 1) = some r ∧
      b1.config.RSS = b.config.RSS.eraseIdx (i - 1).toNat ∧
      b1.config.RSS = b.config.RSS.take (i - 1).toNat ++ b.config.RSS.drop i.toNat ∧
      b1.config.RSS.length + 1 = b.config.RSS.length ∧
      b1.userState userID = none ∧
      (e = false →
        m = [.save b1.config.RSS, .send chatID ("成功删除订阅: " ++ r.URL), .updateRSS]) ∧
      (e = true → m = [.save b1.config.RSS, .send chatID "删除订阅成功，但保存配置失败。"]) ∧
      m.count .updateRSS = (if e then 0 else 1) := by
  have h0 := state_of_userState b userID _ hstate
  obtain ⟨k, rfl⟩ : ∃ k : Nat, i = (k : Int) + 1 := ⟨(i - 1).toNat, by omega⟩
  have hklt : k < b.config.RSS.length := by omega
  have hr : b.config.RSS[k]? = some (b.config.RSS[k]) := List.getElem?_eq_getElem hklt
  have s := step_delete b e userID chatID text _ b.config.RSS[k] h0 ht h1 (by simp)
  refine ⟨_, _, b.config.RSS[k], s, ?_, ?_, ?_, ?_, ?_, ?_, ?_, ?_⟩
  · simp [index?]
  · simp
  · have hi : ((k : Int) + 1).toNat = k + 1 := by omega
    simp [List.eraseIdx_eq_take_drop_succ, hi]
  · simp [List.length_eraseIdx, hklt]
    omega
  · simp
  · intro he; simp [commit, he]
  · intro he; simp [commit, he]
  · exact (count_commit _ _ _ _ _).2

/-- C4, amended, at a concrete input: with three subscriptions and a save
that succeeds, "2" after `/delete`. -/
theorem delete_removes_record_witness :
    ∃ b1 m, handleUserInput (handleDelete exampleBot 5 7).1 false 7 5 "2" = some (b1, m) ∧
      b1.config.RSS =
        [⟨"http://a/feed", 60, ["go"], "tech"⟩, ⟨"http://c/feed", 120, ["x", "y"], "misc"⟩] ∧
      m = [.save b1.config.RSS, .send 5 "成功删除订阅: http://b/feed", .updateRSS] := by
  obtain ⟨b1, m, r, h, hr, h2, _, _, _, h3, _, _⟩ :=
    delete_removes_record (handleDelete exampleBot 5 7).1 false 7 5 "2" 2 rfl (by decide)
      (by decide) (by decide)
  have hr' : r = ⟨"http://b/feed", 300, [], "news"⟩ := by
    have : index? (handleDelete exampleBot 5 7).1.config.RSS (2 - 1)
        = some ⟨"http://b/feed", 300, [], "news"⟩ := by decide
    rw [this] at hr
    exact (Option.some.inj hr).symm
  refine ⟨b1, m, h, by rw [h2]; decide, ?_⟩
  rw [h3 rfl, hr']
  rfl

/-- C5 (the code panics). Three runs of the update loop that end in an index
out of range.  One user: `/add`, a URL, `/list` (which reloads the list from
the file, where the draft never was), then the interval: `RSS[len-1]` on the
empty list.  Two users: the second deletes the first one's draft between the
URL and the interval.  An edit: user 7 chooses record 3, user 8 deletes record
1, and the next text of user 7 reads `RSS[2]` of a list of two.  In each run
all updates but the last are handled. -/
theorem stale_index_panics :
    (run emptyBot [(.command "add" 7 5, answers []), (.text 7 5 "http://x/feed", answers []),
      (.command "list" 7 5, answers []), (.text 7 5 "60", answers [])]).isNone = true ∧
    observe 7 (run emptyBot [(.command "add" 7 5, answers []),
      (.text 7 5 "http://x/feed", answers []), (.command "list" 7 5, answers [])])
      = some ([], some "add_interval",
        [.send 5 "请输入要添加的RSS订阅URL：", .send 5 "请输入订阅的更新间隔（秒）：",
          .send 5 "当前RSS订阅列表:\n"]) ∧
    (run emptyBot [(.command "add" 7 5, answers []), (.text 7 5 "http://x/feed", answers []),
      (.command "delete" 8 6, answers []), (.text 8 6 "1", answers []),
      (.text 7 5 "60", answers [])]).isNone = true ∧
    (run emptyBot [(.command "add" 7 5, answers []), (.text 7 5 "http://x/feed", answers []),
      (.command "delete" 8 6, answers []), (.text 8 6 "1", answers [])]).isSome = true ∧
    (run exampleBot [(.command "edit" 7 5, answers []), (.text 7 5 "3", answers []),
      (.command "delete" 8 6, answers []), (.text 8 6 "1", answers []),
      (.text 7 5 "1", answers [])]).isNone = true ∧
    (run exampleBot [(.command "edit" 7 5, answers []), (.text 7 5 "3", answers []),
      (.command "delete" 8 6, answers []), (.text 8 6 "1", answers [])]).isSome = true := by
  decide

/-- C6, as stated, fails: with three subscriptions, one user sends `/add`, a
URL, `/delete` and "1".  The add dialog is abandoned after its `add_url` step,
and the commit of the delete hands `Save` a list that holds the draft
(the URL, interval 0, no keywords, empty group). -/
theorem abandoned_draft_is_saved :
    observe 7 (run exampleBot [(.command "add" 7 5, answers []),
      (.text 7 5 "http://x/feed", answers []), (.command "delete" 7 5, answers []),
      (.text 7 5 "1", answers [])]) =
      some ([⟨"http://b/feed", 300, [], "news"⟩, ⟨"http://c/feed", 120, ["x", "y"], "misc"⟩,
          ⟨"http://x/feed", 0, [], ""⟩],
        none,
        [.send 5 "请输入要添加的RSS订阅URL：", .send 5 "请输入订阅的更新间隔（秒）：",
          .send 5 "请输入要删除的RSS订阅编号：",
          .save [⟨"http://b/feed", 300, [], "news"⟩, ⟨"http://c/feed", 120, ["x", "y"], "misc"⟩,
            ⟨"http://x/feed", 0, [], ""⟩],
          .send 5 "成功删除订阅: http://a/feed", .updateRSS]) := by
  decide

/-- C6, amended. Every list a call hands to `Save` is the whole in-memory list
as the call leaves it, with no record left out; and the `add_url` step appends
its draft (the text as URL, interval 0, no keywords, empty group) to that
in-memory list at once, without saving. -/
theorem saved_list_is_memory_list (b : Bot) (e : Bool) (userID chatID : Int) (text : String)
    (b1 : Bot) (m : List Effect) (h : handleUserInput b e userID chatID text = some (b1, m)) :
    (∀ l, Effect.save l ∈ m → l = b1.config.RSS) ∧
    (b.state userID = "add_url" →
      b1.config.RSS = b.config.RSS ++ [⟨text, 0, [], ""⟩] ∧ ∀ l, Effect.save l ∉ m) := by
  constructor
  · intro l hl
    rcases effects_shape b e userID chatID text b1 m h with ⟨_, x, y, rfl⟩ | ⟨_, hm⟩
    · cases e <;> simp [commit] at hl <;> exact hl
    · rcases hm with rfl | ⟨msg, rfl⟩ <;> simp at hl
  · intro hs
    rw [step_add_url b e userID chatID text hs] at h
    simp only [Option.some.injEq, Prod.mk.injEq] at h
    obtain ⟨rfl, rfl⟩ := h
    simp

/-- C6, amended, at a concrete input: the list saved by "2" after `/delete`
is the in-memory list that the call leaves. -/
theorem saved_list_is_memory_list_witness :
    ([⟨"http://a/feed", 60, ["go"], "tech"⟩, ⟨"http://c/feed", 120, ["x", "y"], "misc"⟩] :
        List RSSConfig)
      = (((handleDelete exampleBot 5 7).1.setRSS
          ((handleDelete exampleBot 5 7).1.config.RSS.eraseIdx ((2 : Int) - 1).toNat)).deleteState
            7).config.RSS :=
  (saved_list_is_memory_list (handleDelete exampleBot 5 7).1 false 7 5 "2" _ _
    (step_delete (handleDelete exampleBot 5 7).1 false 7 5 "2" 2
      ⟨"http://b/feed", 300, [], "news"⟩ rfl (by decide) (by decide) (by decide))).1 _
    (by decide)

/-- C7. For every event, every directory of `N` recipients (user ids, then
channels) and every assignment `sendErr` of failure to the `N` sends, of which
`k` fail: `SendMessage`, with the display zone loaded, returns `nil` after
calling `IncrementMessageCount` exactly `N - k` times. -/
theorem broadcast_counts_successes {Time : Type} (b : Bot) (formatChina : Time → String)
    (sendErr : Nat → Bool) (title url group : String) (pubDate : Time)
    (matchedKeywords : List String) :
    ∃ trace,
      SendMessage b (some formatChina) sendErr title url group pubDate matchedKeywords
        = some (trace, none)
      ∧ trace.count .increment
        = (b.users.length + b.channels.length)
          - ((List.range (b.users.length + b.channels.length)).filter sendErr).length
      ∧ ((List.range (b.users.length + b.channels.length)).filter sendErr).length
        ≤ b.users.length + b.channels.length := by
  have hu := count_sendToUsers
    (messageText title url group (formatChina pubDate) matchedKeywords) sendErr b.users 0
  have hc := count_sendToChannels
    (messageText title url group (formatChina pubDate) matchedKeywords) sendErr b.channels
    b.users.length
  have hr : List.range (b.users.length + b.channels.length)
      = List.range' 0 b.users.length ++ List.range' b.users.length b.channels.length := by
    rw [List.range_eq_range']
    have := List.range'_append_1 0 b.users.length b.channels.length
    simp only [Nat.zero_add] at this
    rw [Nat.add_comm b.users.length]
    exact this.symm
  refine ⟨_, rfl, ?_, ?_⟩
  · simp only [List.count_append, hr, List.filter_append, List.length_append]
    omega
  · simp only [hr, List.filter_append, List.length_append]
    omega

/-- C7, at a concrete input: two users and one channel, the second send
failing: two increments, and `nil`. -/
theorem broadcast_counts_successes_witness :
    (SendMessage exampleBot (some (fun t : String => t)) (fun k => k == 1) "T" "http://a/1"
      "tech" "2024-01-02 03:04:05" ["go"]).map (fun r => (r.1.count .increment, r.2))
      = some (2, none) := by
  obtain ⟨trace, h, hcount, _⟩ :=
    broadcast_counts_successes exampleBot (fun t : String => t) (fun k => k == 1) "T"
      "http://a/1" "tech" "2024-01-02 03:04:05" ["go"]
  rw [h]
  simp only [Option.map_some', hcount]
  decide

/-- C8. Whatever sends fail, the send attempts of `SendMessage` (with the
display zone loaded) are, in this order, one to each user id of `b.users` in
list order and then one to each channel of `b.channels` in list order, all with
the one formatted text; there are as many attempts as directory entries. -/
theorem broadcast_attempts_in_directory_order {Time : Type} (b : Bot)
    (formatChina : Time → String) (sendErr : Nat → Bool) (title url group : String)
    (pubDate : Time) (matchedKeywords : List String) :
    ∃ trace,
      SendMessage b (some formatChina) sendErr title url group pubDate matchedKeywords
        = some (trace, none)
      ∧ trace.filter Delivery.isAttempt
        = b.users.map (fun userID => Delivery.toUser userID
            (messageText title url group (formatChina pubDate) matchedKeywords))
          ++ b.channels.map (fun channel => Delivery.toChannel channel
            (messageText title url group (formatChina pubDate) matchedKeywords))
      ∧ (trace.filter Delivery.isAttempt).length = b.users.length + b.channels.length := by
  refine ⟨_, rfl, ?_, ?_⟩
  · simp [attempts_sendToUsers, attempts_sendToChannels]
  · simp [attempts_sendToUsers, attempts_sendToChannels]

/-- C8, at a concrete input: two users and one channel, the first send
failing: three attempts, in directory order. -/
theorem broadcast_attempts_in_directory_order_witness :
    ∃ trace,
      SendMessage exampleBot (some (fun t : String => t)) (fun k => k == 0) "T" "http://a/1"
        "tech" "2024-01-02 03:04:05" ["go", "rust"] = some (trace, none)
      ∧ trace.filter Delivery.isAttempt
        = [.toUser 11
            "*T*\n📡  http://a/1\n🔍  *go*, *rust*\n🏷️  *tech*\n🕒  *2024-01-02 03:04:05*",
          .toUser 12
            "*T*\n📡  http://a/1\n🔍  *go*, *rust*\n🏷️  *tech*\n🕒  *2024-01-02 03:04:05*",
          .toChannel "@news"
            "*T*\n📡  http://a/1\n🔍  *go*, *rust*\n🏷️  *tech*\n🕒  *2024-01-02 03:04:05*"] := by
  obtain ⟨trace, h, hf, _⟩ :=
    broadcast_attempts_in_directory_order exampleBot (fun t : String => t) (fun k => k == 0)
      "T" "http://a/1" "tech" "2024-01-02 03:04:05" ["go", "rust"]
  exact ⟨trace, h, by rw [hf]; decide⟩

/-- C9. A call of `handleUserInput` that completes calls `Save` exactly once
when it is handled in state `add_group`, in a state `edit_group_<i>` or in
state `delete` with an integer in `[1, N]`, and not at all otherwise (the other
states, an invalid delete, no open dialog).  The call does complete in state
`add_group` on a list that is not empty, in state `edit_group_<k>` with `k`
within the list or with the text "1", and in state `delete` with a valid
index.  No command calls `Save`. -/
theorem save_only_at_commit_points (b : Bot) (e : Bool) (userID chatID : Int) (text : String) :
    (∀ b1 m, handleUserInput b e userID chatID text = some (b1, m) →
      (commitPoint b userID text → m.countP Effect.isSave = 1) ∧
      (¬ commitPoint b userID text → m.countP Effect.isSave = 0)) ∧
    (b.state userID = "add_group" → b.config.RSS ≠ [] →
      ∃ b1 m, handleUserInput b e userID chatID text = some (b1, m)
        ∧ m.countP Effect.isSave = 1) ∧
    (∀ k : Nat, b.state userID = "edit_group_" ++ formatInt k → k < b.config.RSS.length →
      (k : Int) ≤ maxInt →
      ∃ b1 m, handleUserInput b e userID chatID text = some (b1, m)
        ∧ m.countP Effect.isSave = 1) ∧
    (HasPrefix (b.state userID) "edit_group_" = true → text = "1" →
      ∃ b1 m, handleUserInput b e userID chatID text = some (b1, m)
        ∧ m.countP Effect.isSave = 1) ∧
    (b.state userID = "delete" → validIndex text b.config.RSS.length →
      ∃ b1 m, handleUserInput b e userID chatID text = some (b1, m)
        ∧ m.countP Effect.isSave = 1) ∧
    (∀ w name b1 m, dispatch b w (.command name userID chatID) = some (b1, m) →
      m.countP Effect.isSave = 0) := by
  obtain ⟨d1, d2, d3, d4⟩ := commit_defined b e userID chatID text
  refine ⟨fun b1 m h => ?_, fun h hne => ?_, fun k h hk hmax => ?_, fun h ht => ?_,
    fun h hv => ?_, fun w name b1 m h => ?_⟩
  · rcases effects_shape b e userID chatID text b1 m h with ⟨hc, x, y, rfl⟩ | ⟨hc, hm⟩
    · exact ⟨fun _ => (count_commit _ _ _ _ _).1, fun hn => absurd hc hn⟩
    · refine ⟨fun hp => absurd hp hc, fun _ => ?_⟩
      rcases hm with rfl | ⟨msg, rfl⟩ <;> simp [Effect.isSave]
  · obtain ⟨b1, x, y, hh⟩ := d1 h hne
    exact ⟨_, _, hh, (count_commit _ _ _ _ _).1⟩
  · obtain ⟨b1, x, y, hh⟩ := d2 k h hk hmax
    exact ⟨_, _, hh, (count_commit _ _ _ _ _).1⟩
  · obtain ⟨b1, x, y, hh⟩ := d3 h ht
    exact ⟨_, _, hh, (count_commit _ _ _ _ _).1⟩
  · obtain ⟨b1, x, y, hh⟩ := d4 h hv
    exact ⟨_, _, hh, (count_commit _ _ _ _ _).1⟩
  · have key : ∀ r : Bot × List Effect, some r = some (b1, m) →
        r.2.countP Effect.isSave = 0 → m.countP Effect.isSave = 0 := by
      intro r hr h0
      cases hr
      exact h0
    simp only [dispatch] at h
    split_ifs at h
    all_goals refine key _ h ?_
    all_goals
      simp only [handleStart, handleHelp, handleConfig, handleAdd, handleEdit, handleDelete,
        handleList, handleStats, reloadConfig]
    all_goals (cases w.load <;> simp [Effect.isSave])

/-- C9, at concrete inputs: the `add_group` step of a dialog, the `edit_group`
step of an edit of record 2 and a valid delete each call `Save` once. -/
theorem save_only_at_commit_points_witness :
    (∃ b1 m, handleUserInput (exampleBot.setState 7 "add_group") true 7 5 "tech" = some (b1, m)
      ∧ m.countP Effect.isSave = 1) ∧
    (∃ b1 m, handleUserInput (exampleBot.setState 7 ("edit_group_" ++ formatInt (1 : Nat))) false
        7 5 "tech" = some (b1, m)
      ∧ m.countP Effect.isSave = 1) ∧
    (∃ b1 m, handleUserInput (exampleBot.setState 7 "delete") false 7 5 "3" = some (b1, m)
      ∧ m.countP Effect.isSave = 1) :=
  ⟨(save_only_at_commit_points (exampleBot.setState 7 "add_group") true 7 5 "tech").2.1
      rfl (by decide),
    (save_only_at_commit_points (exampleBot.setState 7 ("edit_group_" ++ formatInt (1 : Nat)))
      false 7 5 "tech").2.2.1 1 rfl (by decide) (by decide),
    (save_only_at_commit_points (exampleBot.setState 7 "delete") false 7 5
      "3").2.2.2.2.1 rfl (by decide)⟩

/-- C10, as stated, fails when the save fails: the `add_group` step of an add
dialog whose save fails hands the list to `Save`, sends the save-failed text
and does not invoke the callback. -/
theorem add_group_save_failure_no_callback :
    observe 7 (run emptyBot [(.command "add" 7 5, answers []),
      (.text 7 5 "http://x/feed", answers []), (.text 7 5 "300", answers []),
      (.text 7 5 "1", answers []),
      (.text 7 5 "tech", { saveErr := true, load := .ok { RSS := [] }, counts := (0, 0) })]) =
      some ([⟨"http://x/feed", 300, [], "tech"⟩], none,
        [.send 5 "请输入要添加的RSS订阅URL：", .send 5 "请输入订阅的更新间隔（秒）：",
          .send 5 "请输入关键词（用逗号分隔，如果没有可以直接输入1）：", .send 5 "请输入组名：",
          .save [⟨"http://x/feed", 300, [], "tech"⟩], .send 5 "添加订阅成功，但保存配置失败。"]) ∧
    ((handleUserInput (exampleBot.setState 7 "add_group") true 7 5 "tech").map
      (fun p => p.2.count .updateRSS)) = some 0 := by
  decide

/-- C10, amended. At the commit points (state `add_group`, a state
`edit_group_<i>` with "1" or any other text, state `delete` with an index in
`[1, N]`) a call that completes hands the list to `Save`, sends one message
and then, when the save succeeded, invokes the callback exactly once; when the
save failed it does not invoke it.  No other call of `handleUserInput` and no
command invokes the callback.  The call does complete in state `add_group` on
a list that is not empty, in state `edit_group_<k>` with `k` within the list or
with the text "1", and in state `delete` with a valid index. -/
theorem callback_once_iff_save_succeeded (b : Bot) (e : Bool) (userID chatID : Int)
    (text : String) :
    (∀ b1 m, handleUserInput b e userID chatID text = some (b1, m) →
      (commitPoint b userID text → e = false →
        ∃ msg, m = [.save b1.config.RSS, .send chatID msg, .updateRSS]) ∧
      (commitPoint b userID text → e = true →
        ∃ msg, m = [.save b1.config.RSS, .send chatID msg]) ∧
      (commitPoint b userID text → m.count .updateRSS = if e then 0 else 1) ∧
      (¬ commitPoint b userID text → m.count .updateRSS = 0)) ∧
    (b.state userID = "add_group" → b.config.RSS ≠ [] →
      ∃ b1 m, handleUserInput b e userID chatID text = some (b1, m)
        ∧ m.count .updateRSS = if e then 0 else 1) ∧
    (∀ k : Nat, b.state userID = "edit_group_" ++ formatInt k → k < b.config.RSS.length →
      (k : Int) ≤ maxInt →
      ∃ b1 m, handleUserInput b e userID chatID text = some (b1, m)
        ∧ m.count .updateRSS = if e then 0 else 1) ∧
    (HasPrefix (b.state userID) "edit_group_" = true → text = "1" →
      ∃ b1 m, handleUserInput b e userID chatID text = some (b1, m)
        ∧ m.count .updateRSS = if e then 0 else 1) ∧
    (b.state userID = "delete" → validIndex text b.config.RSS.length →
      ∃ b1 m, handleUserInput b e userID chatID text = some (b1, m)
        ∧ m.count .updateRSS = if e then 0 else 1) ∧
    (∀ w name b1 m, dispatch b w (.command name userID chatID) = some (b1, m) →
      m.count .updateRSS = 0) := by
  obtain ⟨d1, d2, d3, d4⟩ := commit_defined b e userID chatID text
  refine ⟨fun b1 m h => ?_, fun h hne => ?_, fun k h hk hmax => ?_, fun h ht => ?_,
    fun h hv => ?_, fun w name b1 m h => ?_⟩
  · rcases effects_shape b e userID chatID text b1 m h with ⟨hc, x, y, rfl⟩ | ⟨hc, hm⟩
    · refine ⟨fun _ he => ⟨y, by simp [commit, he]⟩, fun _ he => ⟨x, by simp [commit, he]⟩,
        fun _ => (count_commit _ _ _ _ _).2, fun hn => absurd hc hn⟩
    · refine ⟨fun hp => absurd hp hc, fun hp => absurd hp hc, fun hp => absurd hp hc,
        fun _ => ?_⟩
      rcases hm with rfl | ⟨msg, rfl⟩ <;> simp
  · obtain ⟨b1, x, y, hh⟩ := d1 h hne
    exact ⟨_, _, hh, (count_commit _ _ _ _ _).2⟩
  · obtain ⟨b1, x, y, hh⟩ := d2 k h hk hmax
    exact ⟨_, _, hh, (count_commit _ _ _ _ _).2⟩
  · obtain ⟨b1, x, y, hh⟩ := d3 h ht
    exact ⟨_, _, hh, (count_commit _ _ _ _ _).2⟩
  · obtain ⟨b1, x, y, hh⟩ := d4 h hv
    exact ⟨_, _, hh, (count_commit _ _ _ _ _).2⟩
  · have key : ∀ r : Bot × List Effect, some r = some (b1, m) →
        r.2.count .updateRSS = 0 → m.count .updateRSS = 0 := by
      intro r hr h0
      cases hr
      exact h0
    simp only [dispatch] at h
    split_ifs at h
    all_goals refine key _ h ?_
    all_goals
      simp only [handleStart, handleHelp, handleConfig, handleAdd, handleEdit, handleDelete,
        handleList, handleStats, reloadConfig]
    all_goals (cases w.load <;> simp)

/-- C10, amended, at concrete inputs: the `add_group` step with a save that
succeeds invokes the callback once, with a save that fails not at all. -/
theorem callback_once_iff_save_succeeded_witness :
    (∃ b1 m, handleUserInput (exampleBot.setState 7 "add_group") false 7 5 "tech" = some (b1, m)
      ∧ m.count .updateRSS = 1) ∧
    (∃ b1 m, handleUserInput (exampleBot.setState 7 "add_group") true 7 5 "tech" = some (b1, m)
      ∧ m.count .updateRSS = 0) :=
  ⟨(callback_once_iff_save_succeeded (exampleBot.setState 7 "add_group") false 7 5 "tech").2.1
      rfl (by decide),
    (callback_once_iff_save_succeeded (exampleBot.setState 7 "add_group") true 7 5 "tech").2.1
      rfl (by decide)⟩

/-! ## Further lemmas on the dialog engine -/

theorem dispatch_edit_url (b : Bot) (u : Int) (h : HasPrefix (b.state u) "edit_url_" = true) :
    b.state u ≠ "add_url" ∧ b.state u ≠ "add_interval" ∧ b.state u ≠ "add_keywords" ∧
    b.state u ≠ "add_group" ∧ b.state u ≠ "edit_index" ∧ b.state u ≠ "delete" := by
  obtain ⟨h1, h2, h3, h4, h5, h6, _, _⟩ := edit_url_token (TrimPrefix (b.state u) "edit_url_")
  rw [← prefix_decomp _ _ h] at h1 h2 h3 h4 h5 h6
  exact ⟨h1, h2, h3, h4, h5, h6⟩

theorem dispatch_edit_interval (b : Bot) (u : Int)
    (h : HasPrefix (b.state u) "edit_interval_" = true) :
    b.state u ≠ "add_url" ∧ b.state u ≠ "add_interval" ∧ b.state u ≠ "add_keywords" ∧
    b.state u ≠ "add_group" ∧ b.state u ≠ "edit_index" ∧ b.state u ≠ "delete" ∧
    HasPrefix (b.state u) "edit_url_" = false := by
  obtain ⟨h1, h2, h3, h4, h5, h6, h7, _, _⟩ :=
    edit_interval_token (TrimPrefix (b.state u) "edit_interval_")
  rw [← prefix_decomp _ _ h] at h1 h2 h3 h4 h5 h6 h7
  exact ⟨h1, h2, h3, h4, h5, h6, h7⟩

theorem dispatch_edit_keywords (b : Bot) (u : Int)
    (h : HasPrefix (b.state u) "edit_keywords_" = true) :
    b.state u ≠ "add_url" ∧ b.state u ≠ "add_interval" ∧ b.state u ≠ "add_keywords" ∧
    b.state u ≠ "add_group" ∧ b.state u ≠ "edit_index" ∧ b.state u ≠ "delete" ∧
    HasPrefix (b.state u) "edit_url_" = false ∧
    HasPrefix (b.state u) "edit_interval_" = false := by
  obtain ⟨h1, h2, h3, h4, h5, h6, h7, h8, _, _⟩ :=
    edit_keywords_token (TrimPrefix (b.state u) "edit_keywords_")
  rw [← prefix_decomp _ _ h] at h1 h2 h3 h4 h5 h6 h7 h8
  exact ⟨h1, h2, h3, h4, h5, h6, h7, h8⟩

theorem update?_eq_some {α : Type} (s : List α) (i : Int) (f : α → α) (rss : List α)
    (h : update? s i f = some rss) :
    ∃ k x, s[k]? = some x ∧ rss = s.set k (f x) := by
  unfold update? at h
  split at h
  · simp at h
  · rename_i x hx
    simp only [Option.some.injEq] at h
    unfold index? at hx
    split at hx
    · exact ⟨i.toNat, x, hx, h.symm⟩
    · simp at hx

theorem set_changed {α : Type} (l : List α) (k j : Nat) (x r r' : α)
    (h' : (l.set k x)[j]? = some r') (h : l[j]? = some r) (hne : r' ≠ r) : r' = x := by
  rw [List.getElem?_set] at h'
  split at h'
  · split at h'
    · exact (Option.some.inj h').symm
    · simp at h'
  · rw [h] at h'
    exact absurd (Option.some.inj h').symm hne

theorem splitLoop_ne_nil (cs cur : List Char) : splitLoop cs cur ≠ [] := by
  induction cs generalizing cur with
  | nil => simp [splitLoop]
  | cons c cs ih =>
    unfold splitLoop
    split
    · simp
    · exact ih _

theorem splitLoop_singleton (cs cur : List Char) (x : String) (h : splitLoop cs cur = [x]) :
    x.data = cur.reverse ++ cs := by
  induction cs generalizing cur with
  | nil =>
    simp [splitLoop] at h
    simp [← h]
  | cons c cs ih =>
    unfold splitLoop at h
    split at h
    · simp only [List.cons.injEq] at h
      exact absurd h.2 (splitLoop_ne_nil _ _)
    · have := ih _ h
      simp [this]

theorem Split_eq_one (text : String) (h : Split text = ["1"]) : text = "1" := by
  have := splitLoop_singleton text.data [] "1" h
  apply String.ext
  simp at this
  exact this.symm

theorem branch_edit_url (b : Bot) (e : Bool) (u c : Int) (text : String) (b1 : Bot)
    (m : List Effect) (hp : HasPrefix (b.state u) "edit_url_" = true)
    (h : handleUserInput b e u c text = some (b1, m)) :
    (text = "1" ∧ b1.config.RSS = b.config.RSS) ∨
    (text ≠ "1" ∧ ∃ k r, b.config.RSS[k]? = some r
      ∧ b1.config.RSS = b.config.RSS.set k { r with URL := text }) := by
  obtain ⟨h1, h2, h3, h4, h5, h6⟩ := dispatch_edit_url b u hp
  simp only [handleUserInput, h1, h2, h3, h4, h5, h6, hp, Bool.false_eq_true, if_false, if_true] at h
  by_cases ht : text = "1"
  · left
    simp only [ht, ne_eq, not_true_eq_false, if_false] at h
    split at h
    · simp at h
    · simp only [Option.some.injEq, Prod.mk.injEq] at h
      obtain ⟨rfl, _⟩ := h
      exact ⟨ht, rfl⟩
  · right
    simp only [ne_eq, ht, not_false_eq_true, if_true] at h
    split at h
    · simp at h
    · rename_i rss hrss
      split at h
      · simp at h
      · simp only [Option.some.injEq, Prod.mk.injEq] at h
        obtain ⟨rfl, _⟩ := h
        obtain ⟨k, r, hr, hs⟩ := update?_eq_some _ _ _ _ hrss
        exact ⟨ht, k, r, hr, hs⟩

theorem branch_edit_interval (b : Bot) (e : Bool) (u c : Int) (text : String) (b1 : Bot)
    (m : List Effect) (hp : HasPrefix (b.state u) "edit_interval_" = true)
    (h : handleUserInput b e u c text = some (b1, m)) :
    (text = "1" ∧ b1.config.RSS = b.config.RSS) ∨
    (text ≠ "1" ∧ (Atoi text).2 ≠ none ∧ b1.config.RSS = b.config.RSS) ∨
    (text ≠ "1" ∧ (Atoi text).2 = none ∧ ∃ k r, b.config.RSS[k]? = some r
      ∧ b1.config.RSS = b.config.RSS.set k { r with Interval := (Atoi text).1 }) := by
  obtain ⟨h1, h2, h3, h4, h5, h6, h7⟩ := dispatch_edit_interval b u hp
  simp only [handleUserInput, h1, h2, h3, h4, h5, h6, h7, hp, Bool.false_eq_true, if_false, if_true] at h
  by_cases ht : text = "1"
  · left
    simp only [ht, ne_eq, not_true_eq_false, if_false] at h
    split at h
    · simp at h
    · simp only [Option.some.injEq, Prod.mk.injEq] at h
      obtain ⟨rfl, _⟩ := h
      exact ⟨ht, rfl⟩
  · right
    simp only [ne_eq, ht, not_false_eq_true, if_true] at h
    rcases ha : Atoi text with ⟨n, err⟩
    rw [ha] at h
    cases err with
    | some er =>
      left
      simp only [Option.some.injEq, Prod.mk.injEq] at h
      obtain ⟨rfl, _⟩ := h
      exact ⟨ht, by simp, rfl⟩
    | none =>
      right
      simp only at h
      cases hu : update? b.config.RSS (Atoi (TrimPrefix (b.state u) "edit_interval_")).1
          (fun r => { r with Interval := n }) with
      | none => simp [hu] at h
      | some rss =>
        simp only [hu, Option.map_some'] at h
        split at h
        · simp at h
        · simp only [Option.some.injEq, Prod.mk.injEq] at h
          obtain ⟨rfl, _⟩ := h
          obtain ⟨k, r, hr, hs⟩ := update?_eq_some _ _ _ _ hu
          exact ⟨ht, rfl, k, r, hr, hs⟩

theorem branch_edit_keywords (b : Bot) (e : Bool) (u c : Int) (text : String) (b1 : Bot)
    (m : List Effect) (hp : HasPrefix (b.state u) "edit_keywords_" = true)
    (h : handleUserInput b e u c text = some (b1, m)) :
    (text = "1" ∧ b1.config.RSS = b.config.RSS) ∨
    (text ≠ "1" ∧ ∃ k r, b.config.RSS[k]? = some r
      ∧ b1.config.RSS = b.config.RSS.set k { r with Keywords := Split text }) := by
  obtain ⟨h1, h2, h3, h4, h5, h6, h7, h8⟩ := dispatch_edit_keywords b u hp
  simp only [handleUserInput, h1, h2, h3, h4, h5, h6, h7, h8, hp, Bool.false_eq_true, if_false, if_true] at h
  by_cases ht : text = "1"
  · left
    simp only [ht, ne_eq, not_true_eq_false, if_false] at h
    split at h
    · simp at h
    · simp only [Option.some.injEq, Prod.mk.injEq] at h
      obtain ⟨rfl, _⟩ := h
      exact ⟨ht, rfl⟩
  · right
    simp only [ne_eq, ht, not_false_eq_true, if_true] at h
    split at h
    · simp at h
    · rename_i rss hrss
      split at h
      · simp at h
      · simp only [Option.some.injEq, Prod.mk.injEq] at h
        obtain ⟨rfl, _⟩ := h
        obtain ⟨k, r, hr, hs⟩ := update?_eq_some _ _ _ _ hrss
        exact ⟨ht, k, r, hr, hs⟩

theorem branch_edit_group (b : Bot) (e : Bool) (u c : Int) (text : String) (b1 : Bot)
    (m : List Effect) (hp : HasPrefix (b.state u) "edit_group_" = true)
    (h : handleUserInput b e u c text = some (b1, m)) :
    (text = "1" ∧ b1.config.RSS = b.config.RSS) ∨
    (text ≠ "1" ∧ ∃ k r, b.config.RSS[k]? = some r
      ∧ b1.config.RSS = b.config.RSS.set k { r with Group := text }) := by
  obtain ⟨h1, h2, h3, h4, h5, h6, h7, h8, h9⟩ := dispatch_edit_group b u hp
  simp only [handleUserInput, h1, h2, h3, h4, h5, h6, h7, h8, h9, hp, Bool.false_eq_true, if_false, if_true] at h
  by_cases ht : text = "1"
  · left
    simp only [ht, ne_eq, not_true_eq_false, if_false] at h
    simp only [Option.some.injEq, Prod.mk.injEq] at h
    obtain ⟨rfl, _⟩ := h
    exact ⟨ht, rfl⟩
  · right
    simp only [ne_eq, ht, not_false_eq_true, if_true] at h
    split at h
    · simp at h
    · rename_i rss hrss
      simp only [Option.some.injEq, Prod.mk.injEq] at h
      obtain ⟨rfl, _⟩ := h
      obtain ⟨k, r, hr, hs⟩ := update?_eq_some _ _ _ _ hrss
      exact ⟨ht, k, r, hr, hs⟩

theorem branch_add_keywords (b : Bot) (e : Bool) (u c : Int) (text : String) (b1 : Bot)
    (m : List Effect) (hp : b.state u = "add_keywords")
    (h : handleUserInput b e u c text = some (b1, m)) :
    (text = "1" ∧ b1.config.RSS = b.config.RSS) ∨
    (text ≠ "1" ∧ ∃ k r, b.config.RSS[k]? = some r
      ∧ b1.config.RSS = b.config.RSS.set k { r with Keywords := Split text }) := by
  simp [handleUserInput, hp] at h
  by_cases ht : text = "1"
  · left
    simp [ht] at h
    obtain ⟨rfl, _⟩ := h
    exact ⟨ht, rfl⟩
  · right
    simp only [ht, not_false_eq_true, if_true] at h
    split at h
    · simp at h
    · rename_i rss hrss
      simp only [Option.some.injEq, Prod.mk.injEq] at h
      obtain ⟨rfl, _⟩ := h
      obtain ⟨k, r, hr, hs⟩ := update?_eq_some _ _ _ _ hrss
      exact ⟨ht, k, r, hr, hs⟩

theorem Atoi_one : Atoi "1" = (1, none) := by decide

theorem step_edit_interval (b : Bot) (e : Bool) (u c : Int) (text : String) (k : Nat) (n : Int)
    (r : RSSConfig)
    (h : b.state u = "edit_interval_" ++ formatInt k) (hk : (k : Int) ≤ maxInt)
    (hr : b.config.RSS[k]? = some r) (ht : Atoi text = (n, none)) :
    handleUserInput b e u c text =
      some ((b.setRSS (if text = "1" then b.config.RSS
            else b.config.RSS.set k { r with Interval := n })).setState u
          ("edit_keywords_" ++ formatInt k),
        [.send c ("当前关键词为：" ++ formatStrings r.Keywords
          ++ "\n请输入新的关键词（用逗号分隔，如不修改请输入1）：")]) := by
  obtain ⟨h1, h2, h3, h4, h5, h6, h7, h8, h9⟩ := edit_interval_token (formatInt k)
  have ha := Atoi_formatInt k (by omega) hk
  have hlt := lt_length_of_getElem? _ _ _ hr
  by_cases h1t : text = "1"
  · simp [handleUserInput, h, h1, h2, h3, h4, h5, h6, h7, h8, h9, ha, h1t, index?, hr]
  · simp [handleUserInput, h, h1, h2, h3, h4, h5, h6, h7, h8, h9, ha, h1t, ht, index?, update?,
      hr, hlt]

theorem step_add_interval_reject (b : Bot) (e : Bool) (u c : Int) (text : String)
    (h : b.state u = "add_interval") (ht : (Atoi text).2 ≠ none) :
    handleUserInput b e u c text = some (b, [.send c "无效的间隔时间，请输入一个整数。"]) := by
  rcases ha : Atoi text with ⟨n, err⟩
  rw [ha] at ht
  cases err with
  | none => simp at ht
  | some er => simp [handleUserInput, h, ha]

theorem step_edit_interval_reject (b : Bot) (e : Bool) (u c : Int) (text : String)
    (hp : HasPrefix (b.state u) "edit_interval_" = true) (ht : (Atoi text).2 ≠ none) :
    handleUserInput b e u c text
      = some (b, [.send c "无效的间隔时间，请输入一个整数。不修改请输入1。"]) := by
  obtain ⟨h1, h2, h3, h4, h5, h6, h7⟩ := dispatch_edit_interval b u hp
  have h1t : text ≠ "1" := by
    intro hc
    rw [hc, Atoi_one] at ht
    exact ht rfl
  rcases ha : Atoi text with ⟨n, err⟩
  rw [ha] at ht
  cases err with
  | none => simp at ht
  | some er => simp [handleUserInput, h1, h2, h3, h4, h5, h6, h7, hp, h1t, ha]

theorem commit_result (b : Bot) (e : Bool) (u c : Int) (text : String) (b1 : Bot)
    (m : List Effect) (h : handleUserInput b e u c text = some (b1, m))
    (hc : commitPoint b u text) :
    ∃ failed succeeded,
      (∀ e', handleUserInput b e' u c text
        = some (b1, commit b1.config.RSS e' c failed succeeded)) ∧
      b1.userState u = none ∧
      ((b.state u = "add_group" ∧ failed = "添加订阅成功，但保存配置失败。"
          ∧ succeeded = "成功添加RSS订阅。") ∨
        (HasPrefix (b.state u) "edit_group_" = true ∧ failed = "编辑订阅成功，但保存配置失败。"
          ∧ succeeded = "成功编辑RSS订阅。") ∨
        (b.state u = "delete" ∧ failed = "删除订阅成功，但保存配置失败。"
          ∧ ∃ r, index? b.config.RSS ((Atoi text).1 - 1) = some r
            ∧ succeeded = "成功删除订阅: " ++ r.URL)) := by
  rcases hc with h4 | h10 | ⟨h6, hv⟩
  · simp [handleUserInput, h4] at h
    split at h
    · simp at h
    · rename_i rss hrss
      simp only [Option.some.injEq, Prod.mk.injEq] at h
      obtain ⟨rfl, _⟩ := h
      refine ⟨_, _, ?_, ?_, Or.inl ⟨h4, rfl, rfl⟩⟩
      · intro e'
        simp [handleUserInput, h4, hrss]
      · simp
  · obtain ⟨h1, h2, h3, h4, h5, h6, h7, h8, h9⟩ := dispatch_edit_group b u h10
    simp [handleUserInput, h1, h2, h3, h4, h5, h6, h7, h8, h9, h10] at h
    split at h
    · simp at h
    · rename_i rss hrss
      simp only [Option.some.injEq, Prod.mk.injEq] at h
      obtain ⟨rfl, _⟩ := h
      refine ⟨_, _, ?_, ?_, Or.inr (Or.inl ⟨h10, rfl, rfl⟩)⟩
      · intro e'
        simp [handleUserInput, h1, h2, h3, h4, h5, h6, h7, h8, h9, h10, hrss]
      · simp
  · obtain ⟨hn, hlo, hN⟩ := hv
    have hlt : (Atoi text).1.toNat - 1 < b.config.RSS.length := by omega
    have hr : b.config.RSS[((Atoi text).1 - 1).toNat]?
        = some (b.config.RSS[(Atoi text).1.toNat - 1]) := by
      rw [show ((Atoi text).1 - 1).toNat = (Atoi text).1.toNat - 1 by omega]
      exact List.getElem?_eq_getElem hlt
    have hs := fun e' => step_delete b e' u c text _ _ h6 (Prod.ext rfl hn) hlo hr
    rw [hs e] at h
    simp only [Option.some.injEq, Prod.mk.injEq] at h
    obtain ⟨rfl, _⟩ := h
    refine ⟨_, _, hs, by simp, Or.inr (Or.inr ⟨h6, rfl, _, ?_, rfl⟩)⟩
    simp [index?, hlo]

theorem state_setState_ne (b : Bot) (u v : Int) (t : String) (h : v ≠ u) :
    (b.setState u t).state v = b.state v := by
  simp [Bot.state, Bot.setState, h]

/-! ## The tokens of the state table -/

theorem token_step (b : Bot) (e : Bool) (u c : Int) (text : String) (b1 : Bot)
    (m : List Effect) (h : handleUserInput b e u c text = some (b1, m)) :
    b1.userState = b.userState ∨ b1.userState = (b.deleteState u).userState ∨
    ∃ t, b1.userState = (b.setState u t).userState ∧
      ((b.state u = "add_url" ∧ t = "add_interval") ∨
        (b.state u = "add_interval" ∧ t = "add_keywords") ∨
        (b.state u = "add_keywords" ∧ t = "add_group") ∨
        (b.state u = "edit_index" ∧ validIndex text b.config.RSS.length
          ∧ t = "edit_url_" ++ formatInt ((Atoi text).1 - 1)) ∨
        (HasPrefix (b.state u) "edit_url_" = true
          ∧ t = "edit_interval_" ++ formatInt (Atoi (TrimPrefix (b.state u) "edit_url_")).1) ∨
        (HasPrefix (b.state u) "edit_interval_" = true
          ∧ t = "edit_keywords_"
            ++ formatInt (Atoi (TrimPrefix (b.state u) "edit_interval_")).1) ∨
        (HasPrefix (b.state u) "edit_keywords_" = true
          ∧ t = "edit_group_"
            ++ formatInt (Atoi (TrimPrefix (b.state u) "edit_keywords_")).1)) := by
  by_cases h1 : b.state u = "add_url"
  · right; right
    rw [step_add_url b e u c text h1] at h
    simp only [Option.some.injEq, Prod.mk.injEq] at h
    obtain ⟨rfl, _⟩ := h
    exact ⟨_, rfl, Or.inl ⟨h1, rfl⟩⟩
  by_cases h2 : b.state u = "add_interval"
  · simp [handleUserInput, h2] at h
    split at h
    · simp only [Option.some.injEq, Prod.mk.injEq] at h
      obtain ⟨rfl, _⟩ := h
      exact Or.inl rfl
    · split at h
      · simp at h
      · simp only [Option.some.injEq, Prod.mk.injEq] at h
        obtain ⟨rfl, _⟩ := h
        exact Or.inr (Or.inr ⟨_, rfl, Or.inr (Or.inl ⟨h2, rfl⟩)⟩)
  by_cases h3 : b.state u = "add_keywords"
  · simp [handleUserInput, h3] at h
    split at h
    · simp at h
    · simp only [Option.some.injEq, Prod.mk.injEq] at h
      obtain ⟨rfl, _⟩ := h
      exact Or.inr (Or.inr ⟨_, rfl, Or.inr (Or.inr (Or.inl ⟨h3, rfl⟩))⟩)
  by_cases h4 : b.state u = "add_group"
  · simp [handleUserInput, h4] at h
    split at h
    · simp at h
    · simp only [Option.some.injEq, Prod.mk.injEq] at h
      obtain ⟨rfl, _⟩ := h
      exact Or.inr (Or.inl rfl)
  by_cases h5 : b.state u = "edit_index"
  · simp [handleUserInput, h5] at h
    split at h
    · simp only [Option.some.injEq, Prod.mk.injEq] at h
      obtain ⟨rfl, _⟩ := h
      exact Or.inr (Or.inl rfl)
    · rename_i hok
      split at h
      · simp at h
      · simp only [Option.some.injEq, Prod.mk.injEq] at h
        obtain ⟨rfl, _⟩ := h
        simp only [not_or, Option.not_isSome_iff_eq_none, not_lt, gt_iff_lt] at hok
        exact Or.inr (Or.inr ⟨_, rfl, Or.inr (Or.inr (Or.inr (Or.inl ⟨h5, hok, rfl⟩)))⟩)
  by_cases h6 : b.state u = "delete"
  · simp [handleUserInput, h6] at h
    split at h
    · simp only [Option.some.injEq, Prod.mk.injEq] at h
      obtain ⟨rfl, _⟩ := h
      exact Or.inr (Or.inl rfl)
    · split at h
      · simp at h
      · simp only [Option.some.injEq, Prod.mk.injEq] at h
        obtain ⟨rfl, _⟩ := h
        exact Or.inr (Or.inl rfl)
  by_cases h7 : HasPrefix (b.state u) "edit_url_" = true
  · simp [handleUserInput, h1, h2, h3, h4, h5, h6, h7] at h
    split at h
    · simp at h
    · split at h
      · simp at h
      · simp only [Option.some.injEq, Prod.mk.injEq] at h
        obtain ⟨rfl, _⟩ := h
        exact Or.inr (Or.inr ⟨_, rfl,
          Or.inr (Or.inr (Or.inr (Or.inr (Or.inl ⟨h7, rfl⟩))))⟩)
  by_cases h8 : HasPrefix (b.state u) "edit_interval_" = true
  · simp [handleUserInput, h1, h2, h3, h4, h5, h6, h7, h8] at h
    split at h
    · simp at h
    · simp only [Option.some.injEq, Prod.mk.injEq] at h
      obtain ⟨rfl, _⟩ := h
      exact Or.inl rfl
    · split at h
      · simp at h
      · simp only [Option.some.injEq, Prod.mk.injEq] at h
        obtain ⟨rfl, _⟩ := h
        exact Or.inr (Or.inr ⟨_, rfl,
          Or.inr (Or.inr (Or.inr (Or.inr (Or.inr (Or.inl ⟨h8, rfl⟩)))))⟩)
  by_cases h9 : HasPrefix (b.state u) "edit_keywords_" = true
  · simp [handleUserInput, h1, h2, h3, h4, h5, h6, h7, h8, h9] at h
    split at h
    · simp at h
    · split at h
      · simp at h
      · simp only [Option.some.injEq, Prod.mk.injEq] at h
        obtain ⟨rfl, _⟩ := h
        exact Or.inr (Or.inr ⟨_, rfl,
          Or.inr (Or.inr (Or.inr (Or.inr (Or.inr (Or.inr ⟨h9, rfl⟩)))))⟩)
  by_cases h10 : HasPrefix (b.state u) "edit_group_" = true
  · simp [handleUserInput, h1, h2, h3, h4, h5, h6, h7, h8, h9, h10] at h
    split at h
    · simp at h
    · simp only [Option.some.injEq, Prod.mk.injEq] at h
      obtain ⟨rfl, _⟩ := h
      exact Or.inr (Or.inl rfl)
  · simp [handleUserInput, h1, h2, h3, h4, h5, h6, h7, h8, h9, h10] at h
    obtain ⟨rfl, _⟩ := h
    exact Or.inl rfl

theorem edit_prefix_table (x : String) :
    (HasPrefix ("edit_url_" ++ x) "edit_interval_" = false ∧
      HasPrefix ("edit_url_" ++ x) "edit_keywords_" = false ∧
      HasPrefix ("edit_url_" ++ x) "edit_group_" = false) ∧
    (HasPrefix ("edit_interval_" ++ x) "edit_url_" = false ∧
      HasPrefix ("edit_interval_" ++ x) "edit_keywords_" = false ∧
      HasPrefix ("edit_interval_" ++ x) "edit_group_" = false) ∧
    (HasPrefix ("edit_keywords_" ++ x) "edit_url_" = false ∧
      HasPrefix ("edit_keywords_" ++ x) "edit_interval_" = false ∧
      HasPrefix ("edit_keywords_" ++ x) "edit_group_" = false) ∧
    (HasPrefix ("edit_group_" ++ x) "edit_url_" = false ∧
      HasPrefix ("edit_group_" ++ x) "edit_interval_" = false ∧
      HasPrefix ("edit_group_" ++ x) "edit_keywords_" = false) := by
  simp [HasPrefix, List.isPrefixOf]

theorem stored_prefix_index (s : String) (hs : storedToken s) :
    (HasPrefix s "edit_url_" = true →
      ∃ k : Nat, (k : Int) ≤ maxInt ∧ s = "edit_url_" ++ formatInt k) ∧
    (HasPrefix s "edit_interval_" = true →
      ∃ k : Nat, (k : Int) ≤ maxInt ∧ s = "edit_interval_" ++ formatInt k) ∧
    (HasPrefix s "edit_keywords_" = true →
      ∃ k : Nat, (k : Int) ≤ maxInt ∧ s = "edit_keywords_" ++ formatInt k) := by
  rcases hs with rfl | rfl | rfl | rfl | rfl | rfl | ⟨k, hk, hform⟩
  · exact ⟨fun h => absurd h (by decide), fun h => absurd h (by decide),
      fun h => absurd h (by decide)⟩
  · exact ⟨fun h => absurd h (by decide), fun h => absurd h (by decide),
      fun h => absurd h (by decide)⟩
  · exact ⟨fun h => absurd h (by decide), fun h => absurd h (by decide),
      fun h => absurd h (by decide)⟩
  · exact ⟨fun h => absurd h (by decide), fun h => absurd h (by decide),
      fun h => absurd h (by decide)⟩
  · exact ⟨fun h => absurd h (by decide), fun h => absurd h (by decide),
      fun h => absurd h (by decide)⟩
  · exact ⟨fun h => absurd h (by decide), fun h => absurd h (by decide),
      fun h => absurd h (by decide)⟩
  · obtain ⟨⟨a1, a2, _⟩, ⟨b1, b2, _⟩, ⟨c1, c2, _⟩, ⟨d1, d2, d3⟩⟩ :=
      edit_prefix_table (formatInt k)
    rcases hform with rfl | rfl | rfl | rfl
    · exact ⟨fun _ => ⟨k, hk, rfl⟩, fun h => by rw [a1] at h; exact absurd h (by decide),
        fun h => by rw [a2] at h; exact absurd h (by decide)⟩
    · exact ⟨fun h => by rw [b1] at h; exact absurd h (by decide), fun _ => ⟨k, hk, rfl⟩,
        fun h => by rw [b2] at h; exact absurd h (by decide)⟩
    · exact ⟨fun h => by rw [c1] at h; exact absurd h (by decide),
        fun h => by rw [c2] at h; exact absurd h (by decide), fun _ => ⟨k, hk, rfl⟩⟩
    · exact ⟨fun h => by rw [d1] at h; exact absurd h (by decide),
        fun h => by rw [d2] at h; exact absurd h (by decide),
        fun h => by rw [d3] at h; exact absurd h (by decide)⟩

theorem state_prefix_some (b : Bot) (u : Int) (pre : String) (hne : HasPrefix "" pre = false)
    (h : HasPrefix (b.state u) pre = true) : b.userState u = some (b.state u) := by
  unfold Bot.state at h ⊢
  cases hu : b.userState u with
  | none => rw [hu] at h; simp [hne] at h
  | some t => simp

theorem stored_step (b : Bot) (e : Bool) (u c : Int) (text : String) (b1 : Bot)
    (m : List Effect) (hinv : ∀ v t, b.userState v = some t → storedToken t)
    (h : handleUserInput b e u c text = some (b1, m)) :
    ∀ v t, b1.userState v = some t → storedToken t := by
  intro v t hv
  rcases token_step b e u c text b1 m h with hs | hs | ⟨t', hs, ht'⟩
  · rw [hs] at hv
    exact hinv v t hv
  · rw [hs] at hv
    simp only [Bot.deleteState] at hv
    split at hv
    · simp at hv
    · exact hinv v t hv
  · rw [hs] at hv
    simp only [Bot.setState] at hv
    split at hv
    · simp only [Option.some.injEq] at hv
      subst hv
      rcases ht' with ⟨_, rfl⟩ | ⟨_, rfl⟩ | ⟨_, rfl⟩ | ⟨_, ⟨hn, hlo, hN⟩, rfl⟩ | ⟨hp, rfl⟩ |
        ⟨hp, rfl⟩ | ⟨hp, rfl⟩
      · simp [storedToken]
      · simp [storedToken]
      · simp [storedToken]
      · have hmax := Atoi_le_maxInt text (Atoi text).1 (Prod.ext rfl hn)
        refine Or.inr (Or.inr (Or.inr (Or.inr (Or.inr (Or.inr
          ⟨((Atoi text).1 - 1).toNat, by omega, Or.inl ?_⟩)))))
        rw [show (((Atoi text).1 - 1).toNat : Int) = (Atoi text).1 - 1 by omega]
      · have hsome := state_prefix_some b u _ (by decide) hp
        obtain ⟨k, hk, hks⟩ := (stored_prefix_index _ (hinv u _ hsome)).1 hp
        rw [hks, (edit_url_token _).2.2.2.2.2.2.2, Atoi_formatInt k (by omega) hk]
        exact Or.inr (Or.inr (Or.inr (Or.inr (Or.inr (Or.inr
          ⟨k, hk, Or.inr (Or.inl rfl)⟩)))))
      · have hsome := state_prefix_some b u _ (by decide) hp
        obtain ⟨k, hk, hks⟩ := (stored_prefix_index _ (hinv u _ hsome)).2.1 hp
        rw [hks, (edit_interval_token _).2.2.2.2.2.2.2.2, Atoi_formatInt k (by omega) hk]
        exact Or.inr (Or.inr (Or.inr (Or.inr (Or.inr (Or.inr
          ⟨k, hk, Or.inr (Or.inr (Or.inl rfl))⟩)))))
      · have hsome := state_prefix_some b u _ (by decide) hp
        obtain ⟨k, hk, hks⟩ := (stored_prefix_index _ (hinv u _ hsome)).2.2 hp
        rw [hks, (edit_keywords_token _).2.2.2.2.2.2.2.2.2, Atoi_formatInt k (by omega) hk]
        exact Or.inr (Or.inr (Or.inr (Or.inr (Or.inr (Or.inr
          ⟨k, hk, Or.inr (Or.inr (Or.inr rfl))⟩)))))
    · exact hinv v t hv

theorem stored_dispatch (b : Bot) (w : Answers) (upd : Update) (b1 : Bot) (m : List Effect)
    (hinv : ∀ v t, b.userState v = some t → storedToken t)
    (h : dispatch b w upd = some (b1, m)) :
    ∀ v t, b1.userState v = some t → storedToken t := by
  cases upd with
  | noMessage =>
    simp only [dispatch, Option.some.injEq, Prod.mk.injEq] at h
    obtain ⟨rfl, _⟩ := h
    exact hinv
  | text u c text => exact stored_step b w.saveErr u c text b1 m hinv h
  | command name u c =>
    simp only [dispatch] at h
    have hset : ∀ tok, storedToken tok →
        ∀ v t, (b.setState u tok).userState v = some t → storedToken t := by
      intro tok htok v t hv
      simp only [Bot.setState] at hv
      split at hv
      · simp only [Option.some.injEq] at hv
        subst hv
        exact htok
      · exact hinv v t hv
    have hload : ∀ v t, (reloadConfig b w.load).1.userState v = some t → storedToken t := by
      unfold reloadConfig
      cases w.load <;> exact hinv
    split_ifs at h
    all_goals
      simp only [Option.some.injEq] at h
      have hb := congrArg Prod.fst h
      simp only at hb
      subst hb
    · exact hinv
    · exact hinv
    · unfold handleConfig
      split <;> rename_i heq <;> (have hfst := congrArg Prod.fst heq; simp only at hfst; subst hfst) <;>
        exact hload
    · exact hset _ (by simp [storedToken])
    · exact hset _ (by simp [storedToken])
    · exact hset _ (by simp [storedToken])
    · unfold handleList
      split <;> rename_i heq <;> (have hfst := congrArg Prod.fst heq; simp only at hfst; subst hfst) <;>
        exact hload
    · exact hinv
    · exact hinv

theorem stored_run (trace : List (Update × Answers)) (b b1 : Bot) (m : List Effect)
    (hinv : ∀ v t, b.userState v = some t → storedToken t)
    (h : run b trace = some (b1, m)) :
    ∀ v t, b1.userState v = some t → storedToken t := by
  induction trace generalizing b m with
  | nil =>
    simp only [run, Option.some.injEq, Prod.mk.injEq] at h
    obtain ⟨rfl, _⟩ := h
    exact hinv
  | cons x rest ih =>
    obtain ⟨upd, w⟩ := x
    simp only [run] at h
    split at h
    · simp at h
    · rename_i b2 effects hd
      split at h
      · simp at h
      · rename_i b3 more hr
        simp only [Option.some.injEq, Prod.mk.injEq] at h
        obtain ⟨rfl, _⟩ := h
        exact ih b2 more (stored_dispatch b w upd b2 effects hinv hd) hr

/-! ## Lemmas on the listings and on the text of a broadcast -/

theorem foldl_append_left (p q : String) (l : List String) :
    List.foldl (fun r s => r ++ s) (p ++ q) l = p ++ List.foldl (fun r s => r ++ s) q l := by
  induction l generalizing q with
  | nil => rfl
  | cons x rest ih =>
    simp only [List.foldl_cons, String.append_assoc]
    exact ih _

theorem appendRSS_eq (acc : String) (i : Nat) (l : List RSSConfig) :
    appendRSS acc i l
      = acc ++ String.join ((l.enumFrom i).map (fun p => formatRSS p.1 p.2)) := by
  induction l generalizing acc i with
  | nil => simp [appendRSS, String.join]
  | cons r rest ih =>
    rw [appendRSS, ih]
    simp only [List.enumFrom, List.map_cons, String.join, List.foldl_cons, String.append_assoc,
      String.empty_append]
    have := foldl_append_left (formatRSS i r) ""
      (List.map (fun p => formatRSS p.1 p.2) (List.enumFrom (i + 1) rest))
    rw [String.append_empty] at this
    rw [this]

theorem natDigits_small (fuel n : Nat) (h : n < 10) :
    natDigits (fuel + 1) n = [Char.ofNat (48 + n)] := by
  simp [natDigits, h]

theorem natDigits_big (fuel n : Nat) (h : 10 ≤ n) :
    natDigits (fuel + 1) n = natDigits fuel (n / 10) ++ [Char.ofNat (48 + n % 10)] := by
  rw [natDigits, if_neg (by omega)]

theorem natDigits_lt_100 (fuel n : Nat) (h : n < 100) (h10 : 10 ≤ n) :
    natDigits (fuel + 2) n = [Char.ofNat (48 + n / 10), Char.ofNat (48 + n % 10)] := by
  rw [natDigits_big (fuel + 1) n h10, natDigits_small fuel _ (by omega)]
  rfl

theorem natDigits_lt_1000 (fuel n : Nat) (h : n < 1000) (h100 : 100 ≤ n) :
    natDigits (fuel + 3) n
      = [Char.ofNat (48 + n / 100), Char.ofNat (48 + n / 10 % 10), Char.ofNat (48 + n % 10)] := by
  rw [natDigits_big (fuel + 2) n (by omega), natDigits_lt_100 fuel _ (by omega) (by omega)]
  simp [Nat.div_div_eq_div_mul]

theorem natDigits_lt_10000 (fuel n : Nat) (h : n < 10000) (h1000 : 1000 ≤ n) :
    natDigits (fuel + 4) n
      = [Char.ofNat (48 + n / 1000), Char.ofNat (48 + n / 100 % 10),
        Char.ofNat (48 + n / 10 % 10), Char.ofNat (48 + n % 10)] := by
  rw [natDigits_big (fuel + 3) n (by omega), natDigits_lt_1000 fuel _ (by omega) (by omega)]
  simp [Nat.div_div_eq_div_mul]

theorem appendInt_two (n : Nat) (h : n < 100) :
    appendInt n 2 = ⟨[Char.ofNat (48 + n / 10), Char.ofNat (48 + n % 10)]⟩ := by
  unfold appendInt
  simp only [Int.natAbs_ofNat]
  rw [if_neg (by omega)]
  by_cases h10 : n < 10
  · rw [natDigits_small _ _ h10]
    have h0 : n / 10 = 0 := by omega
    have h1 : n % 10 = n := by omega
    simp [h0, h1]
  · obtain ⟨f, rfl⟩ : ∃ f, n = f + 1 := ⟨n - 1, by omega⟩
    rw [natDigits_lt_100 f _ h (by omega)]
    simp

theorem appendInt_four (n : Nat) (h : n < 10000) :
    appendInt n 4 = ⟨[Char.ofNat (48 + n / 1000), Char.ofNat (48 + n / 100 % 10),
      Char.ofNat (48 + n / 10 % 10), Char.ofNat (48 + n % 10)]⟩ := by
  unfold appendInt
  simp only [Int.natAbs_ofNat]
  rw [if_neg (by omega)]
  by_cases h10 : n < 10
  · rw [natDigits_small _ _ h10]
    have h0 : n / 1000 = 0 := by omega
    have h1 : n / 100 = 0 := by omega
    have h2 : n / 10 = 0 := by omega
    have h3 : n % 10 = n := by omega
    simp [h0, h1, h2, h3, List.replicate]
  by_cases h100 : n < 100
  · obtain ⟨f, rfl⟩ : ∃ f, n = f + 1 := ⟨n - 1, by omega⟩
    rw [natDigits_lt_100 f _ h100 (by omega)]
    have h0 : (f + 1) / 1000 = 0 := by omega
    have h1 : (f + 1) / 100 = 0 := by omega
    have h2 : (f + 1) / 10 % 10 = (f + 1) / 10 := by omega
    simp [h0, h1, h2, List.replicate]
  by_cases h1000 : n < 1000
  · obtain ⟨f, rfl⟩ : ∃ f, n = f + 2 := ⟨n - 2, by omega⟩
    rw [natDigits_lt_1000 f _ h1000 (by omega)]
    have h0 : (f + 2) / 1000 = 0 := by omega
    have h1 : (f + 2) / 100 % 10 = (f + 2) / 100 := by omega
    simp [h0, h1, List.replicate]
  · obtain ⟨f, rfl⟩ : ∃ f, n = f + 3 := ⟨n - 3, by omega⟩
    rw [natDigits_lt_10000 f _ h (by omega)]
    simp

theorem Join_cons_cons (a b : String) (rest : List String) (sep : String) :
    Join (a :: b :: rest) sep = a ++ sep ++ Join (b :: rest) sep := by
  have key : ∀ (l : List String) (p q : String),
      List.foldl (fun acc x => acc ++ sep ++ x) (p ++ q) l
        = p ++ List.foldl (fun acc x => acc ++ sep ++ x) q l := by
    intro l
    induction l with
    | nil => intro p q; rfl
    | cons x xs ih =>
      intro p q
      rw [List.foldl_cons, List.foldl_cons]
      have hassoc : p ++ q ++ sep ++ x = p ++ (q ++ sep ++ x) := by
        rw [String.append_assoc, String.append_assoc, String.append_assoc]
      rw [hassoc]
      exact ih p (q ++ sep ++ x)
  exact key rest (a ++ sep) b

/-! ## The claims, continued -/

/-- C11. At a commit point (state `add_group`, a state `edit_group_<i>`, state
`delete` with a valid index), a call that completes with a failing save leaves
the very bot (list and state table) that the same call leaves with a
succeeding save: the mutation is kept and the state entry of the user is
removed.  Its effects are the save and one message, the save-failed text of
the action, which is not the text the action sends on success.  The call does
complete in state `add_group` on a list that is not empty, in state
`edit_group_<k>` with `k` within the list or with the text "1", and in state
`delete` with a valid index. -/
theorem save_failure_keeps_mutation (b : Bot) (userID chatID : Int) (text : String) :
    (∀ b1 m, handleUserInput b true userID chatID text = some (b1, m) →
      commitPoint b userID text →
      ∃ failed succeeded,
        m = [.save b1.config.RSS, .send chatID failed] ∧
        handleUserInput b false userID chatID text
          = some (b1, [.save b1.config.RSS, .send chatID succeeded, .updateRSS]) ∧
        b1.userState userID = none ∧
        failed ≠ succeeded ∧
        ((b.state userID = "add_group" ∧ failed = "添加订阅成功，但保存配置失败。"
            ∧ succeeded = "成功添加RSS订阅。") ∨
          (HasPrefix (b.state userID) "edit_group_" = true
            ∧ failed = "编辑订阅成功，但保存配置失败。" ∧ succeeded = "成功编辑RSS订阅。") ∨
          (b.state userID = "delete" ∧ failed = "删除订阅成功，但保存配置失败。"
            ∧ ∃ r, index? b.config.RSS ((Atoi text).1 - 1) = some r
              ∧ succeeded = "成功删除订阅: " ++ r.URL))) ∧
    (b.state userID = "add_group" → b.config.RSS ≠ [] →
      ∃ b1 m, handleUserInput b true userID chatID text = some (b1, m)) ∧
    (∀ k : Nat, b.state userID = "edit_group_" ++ formatInt k → k < b.config.RSS.length →
      (k : Int) ≤ maxInt → ∃ b1 m, handleUserInput b true userID chatID text = some (b1, m)) ∧
    (HasPrefix (b.state userID) "edit_group_" = true → text = "1" →
      ∃ b1 m, handleUserInput b true userID chatID text = some (b1, m)) ∧
    (b.state userID = "delete" → validIndex text b.config.RSS.length →
      ∃ b1 m, handleUserInput b true userID chatID text = some (b1, m)) := by
  obtain ⟨d1, d2, d3, d4⟩ := commit_defined b true userID chatID text
  refine ⟨fun b1 m h hc => ?_, fun h hne => ?_, fun k h hk hmax => ?_, fun h ht => ?_,
    fun h hv => ?_⟩
  · obtain ⟨failed, succeeded, hall, hst, hmsg⟩ :=
      commit_result b true userID chatID text b1 m h hc
    have ht := hall true
    rw [h] at ht
    simp only [Option.some.injEq, Prod.mk.injEq, true_and] at ht
    refine ⟨failed, succeeded, by rw [ht]; simp [commit], by rw [hall false]; simp [commit],
      hst, ?_, hmsg⟩
    rcases hmsg with ⟨_, rfl, rfl⟩ | ⟨_, rfl, rfl⟩ | ⟨_, rfl, r, _, rfl⟩
    · decide
    · decide
    · simp [String.ext_iff]
  · obtain ⟨b1, x, y, hh⟩ := d1 h hne
    exact ⟨_, _, hh⟩
  · obtain ⟨b1, x, y, hh⟩ := d2 k h hk hmax
    exact ⟨_, _, hh⟩
  · obtain ⟨b1, x, y, hh⟩ := d3 h ht
    exact ⟨_, _, hh⟩
  · obtain ⟨b1, x, y, hh⟩ := d4 h hv
    exact ⟨_, _, hh⟩

/-- C11, at a concrete input: with three subscriptions, "2" in state `delete`
with a failing save and with a succeeding one. -/
theorem save_failure_keeps_mutation_witness :
    ∃ b1 failed succeeded,
      handleUserInput (exampleBot.setState 7 "delete") true 7 5 "2"
        = some (b1, [.save b1.config.RSS, .send 5 failed]) ∧
      handleUserInput (exampleBot.setState 7 "delete") false 7 5 "2"
        = some (b1, [.save b1.config.RSS, .send 5 succeeded, .updateRSS]) ∧
      b1.userState 7 = none ∧ failed ≠ succeeded := by
  obtain ⟨b1, m, h⟩ := (save_failure_keeps_mutation (exampleBot.setState 7 "delete") 7 5
    "2").2.2.2.2 rfl (by decide)
  obtain ⟨failed, succeeded, hm, hok, hst, hne, _⟩ :=
    (save_failure_keeps_mutation (exampleBot.setState 7 "delete") 7 5 "2").1 b1 m h
      (Or.inr (Or.inr ⟨rfl, by decide⟩))
  exact ⟨b1, failed, succeeded, by rw [← hm]; exact h, hok, hst, hne⟩

/-- C12, as stated, fails for the text "1" in an edit session: in state
`edit_interval_0` the text "abc" is answered by the reprompt and changes
nothing, and the following text "1", which `strconv.Atoi` parses to 1, advances
the state to `edit_keywords_0` but leaves the interval at 60. -/
theorem edit_interval_one_keeps_interval :
    (run exampleBot [(.command "edit" 7 5, answers []), (.text 7 5 "1", answers []),
      (.text 7 5 "1", answers []), (.text 7 5 "abc", answers []),
      (.text 7 5 "1", answers [])]).map (fun p => (p.1.config.RSS, p.1.userState 7))
      = some ([⟨"http://a/feed", 60, ["go"], "tech"⟩, ⟨"http://b/feed", 300, [], "news"⟩,
          ⟨"http://c/feed", 120, ["x", "y"], "misc"⟩], some "edit_keywords_0") ∧
    Atoi "1" = (1, none) ∧
    observe 7 (handleUserInput (exampleBot.setState 7 "edit_interval_0") false 7 5 "abc")
      = some (exampleBot.config.RSS, some "edit_interval_0",
        [.send 5 "无效的间隔时间，请输入一个整数。不修改请输入1。"]) := by
  decide

/-- C12, amended. For a text `bad` that `strconv.Atoi` rejects: in state
`add_interval` the call returns the bot unchanged (state and list) after one
reprompt; in a state `edit_interval_<i>` likewise (such a text is never "1").
A following text `good` that parses to `n` advances the state (`add_keywords`,
resp. `edit_keywords_<k>`) with one prompt and sets the interval to `n`: in
state `add_interval` that of the last record of a list that is not empty, in
state `edit_interval_<k>` that of record `k` of the list, except that there
the text "1" keeps the interval. -/
theorem interval_reprompt_then_set (b : Bot) (e e' : Bool) (userID chatID chatID' : Int)
    (bad good : String) (n : Int)
    (hbad : (Atoi bad).2 ≠ none) (hgood : Atoi good = (n, none)) :
    (b.state userID = "add_interval" →
      handleUserInput b e userID chatID bad
        = some (b, [.send chatID "无效的间隔时间，请输入一个整数。"]) ∧
      ∀ l r, b.config.RSS = l ++ [r] →
        ∃ b1 msg, handleUserInput b e' userID chatID' good = some (b1, [.send chatID' msg]) ∧
          b1.config.RSS = l ++ [{ r with Interval := n }] ∧
          b1.userState userID = some "add_keywords") ∧
    (HasPrefix (b.state userID) "edit_interval_" = true →
      bad ≠ "1" ∧
      handleUserInput b e userID chatID bad
        = some (b, [.send chatID "无效的间隔时间，请输入一个整数。不修改请输入1。"])) ∧
    (∀ (k : Nat) r, b.state userID = "edit_interval_" ++ formatInt k → (k : Int) ≤ maxInt →
      b.config.RSS[k]? = some r →
        ∃ b1 msg, handleUserInput b e' userID chatID' good = some (b1, [.send chatID' msg]) ∧
          b1.config.RSS = (if good = "1" then b.config.RSS
            else b.config.RSS.set k { r with Interval := n }) ∧
          b1.userState userID = some ("edit_keywords_" ++ formatInt k)) := by
  refine ⟨fun h => ⟨step_add_interval_reject b e userID chatID bad h hbad, fun l r hl => ?_⟩,
    fun hp => ⟨?_, step_edit_interval_reject b e userID chatID bad hp hbad⟩,
    fun k r h hk hr => ?_⟩
  · refine ⟨_, _, step_add_interval b e' userID chatID' good n l r h hgood hl, ?_, ?_⟩
    · simp
    · simp [Bot.setState]
  · intro hc
    rw [hc, Atoi_one] at hbad
    exact hbad rfl
  · refine ⟨_, _, step_edit_interval b e' userID chatID' good k n r h hk hr hgood, ?_, ?_⟩
    · simp
    · simp [Bot.setState]

/-- C12, amended, at a concrete input: in state `add_interval`, "abc" and then
"300". -/
theorem interval_reprompt_then_set_witness :
    observe 7 (handleUserInput (exampleBot.setState 7 "add_interval") false 7 5 "abc")
      = some (exampleBot.config.RSS, some "add_interval",
        [.send 5 "无效的间隔时间，请输入一个整数。"]) ∧
    ∃ b1 msg, handleUserInput (exampleBot.setState 7 "add_interval") false 7 5 "300"
        = some (b1, [.send 5 msg]) ∧
      b1.config.RSS = [⟨"http://a/feed", 60, ["go"], "tech"⟩, ⟨"http://b/feed", 300, [], "news"⟩,
          ⟨"http://c/feed", 300, ["x", "y"], "misc"⟩] ∧
      b1.userState 7 = some "add_keywords" := by
  obtain ⟨h1, h2⟩ := (interval_reprompt_then_set (exampleBot.setState 7 "add_interval") false
    false 7 5 5 "abc" "300" 300 (by decide) (by decide)).1 rfl
  refine ⟨by rw [h1]; decide, ?_⟩
  exact h2 [⟨"http://a/feed", 60, ["go"], "tech"⟩, ⟨"http://b/feed", 300, [], "news"⟩]
    ⟨"http://c/feed", 120, ["x", "y"], "misc"⟩ rfl

/-- C13. The steps of an edit session.  In state `edit_index` a text that
parses to `i` in `[1, N]` leaves the list unchanged and stores the state
`edit_url_<k>` with `k = i - 1`, an index within the list.  In a state
`edit_<step>_<k>` with record `k` in the list, on "1" the list is unchanged,
and on any other text (for the interval: one that `strconv.Atoi` parses) the
list is the old one with the step's field of record `k` set from the text
(keywords: the text split on ","); record `k` is still in the list and the
state advances to the next step with the same `k` (url, interval, keywords,
group, then removed).  Setting record `k` keeps the length of the list and
every other record. -/
theorem edit_session_frame (b : Bot) (e : Bool) (userID chatID : Int) (text : String) :
    (∀ i, b.state userID = "edit_index" → Atoi text = (i, none) → 1 ≤ i →
      i ≤ b.config.RSS.length →
      ∃ b1 m, ∃ k : Nat, handleUserInput b e userID chatID text = some (b1, m) ∧
        (k : Int) = i - 1 ∧ k < b.config.RSS.length ∧ (k : Int) ≤ maxInt ∧
        b1.config.RSS = b.config.RSS ∧
        b1.userState userID = some ("edit_url_" ++ formatInt k)) ∧
    (∀ (k : Nat) r, (k : Int) ≤ maxInt → b.config.RSS[k]? = some r →
      (b.state userID = "edit_url_" ++ formatInt k →
        ∃ b1 m, handleUserInput b e userID chatID text = some (b1, m) ∧
          b1.config.RSS = (if text = "1" then b.config.RSS
            else b.config.RSS.set k { r with URL := text }) ∧
          k < b1.config.RSS.length ∧
          b1.userState userID = some ("edit_interval_" ++ formatInt k)) ∧
      (b.state userID = "edit_interval_" ++ formatInt k → ∀ n, Atoi text = (n, none) →
        ∃ b1 m, handleUserInput b e userID chatID text = some (b1, m) ∧
          b1.config.RSS = (if text = "1" then b.config.RSS
            else b.config.RSS.set k { r with Interval := n }) ∧
          k < b1.config.RSS.length ∧
          b1.userState userID = some ("edit_keywords_" ++ formatInt k)) ∧
      (b.state userID = "edit_keywords_" ++ formatInt k →
        ∃ b1 m, handleUserInput b e userID chatID text = some (b1, m) ∧
          b1.config.RSS = (if text = "1" then b.config.RSS
            else b.config.RSS.set k { r with Keywords := Split text }) ∧
          k < b1.config.RSS.length ∧
          b1.userState userID = some ("edit_group_" ++ formatInt k)) ∧
      (b.state userID = "edit_group_" ++ formatInt k →
        ∃ b1 m, handleUserInput b e userID chatID text = some (b1, m) ∧
          b1.config.RSS = (if text = "1" then b.config.RSS
            else b.config.RSS.set k { r with Group := text }) ∧
          b1.userState userID = none)) ∧
    (∀ (k : Nat) (r' : RSSConfig),
      (b.config.RSS.set k r').length = b.config.RSS.length ∧
      (k < b.config.RSS.length → (b.config.RSS.set k r')[k]? = some r') ∧
      ∀ j, j ≠ k → (b.config.RSS.set k r')[j]? = b.config.RSS[j]?) := by
  refine ⟨fun i h ht h1 hN => ?_, fun k r hk hr => ⟨fun h => ?_, fun h n ht => ?_, fun h => ?_,
    fun h => ?_⟩, fun k r' => ⟨by simp, fun hlt => by simp [hlt], fun j hj => ?_⟩⟩
  · obtain ⟨k, rfl⟩ : ∃ k : Nat, i = (k : Int) + 1 := ⟨(i - 1).toNat, by omega⟩
    have hklt : k < b.config.RSS.length := by omega
    have hmax : ((k : Int) + 1) ≤ maxInt := Atoi_le_maxInt text _ ht
    have hr : b.config.RSS[k]? = some (b.config.RSS[k]) := List.getElem?_eq_getElem hklt
    have hik : (k : Int) + 1 - 1 = k := by omega
    have s0 := step_edit_index b e userID chatID text _ b.config.RSS[k] h ht h1 (by simp)
    rw [hik] at s0
    exact ⟨_, _, k, s0, hik.symm, hklt, by omega, by simp, by simp [Bot.setState]⟩
  · have hlt := lt_length_of_getElem? _ _ _ hr
    exact ⟨_, _, step_edit_url b e userID chatID text k r h hk hr, by simp,
      by by_cases h1t : text = "1" <;> simp [h1t, hlt], by simp [Bot.setState]⟩
  · have hlt := lt_length_of_getElem? _ _ _ hr
    exact ⟨_, _, step_edit_interval b e userID chatID text k n r h hk hr ht, by simp,
      by by_cases h1t : text = "1" <;> simp [h1t, hlt], by simp [Bot.setState]⟩
  · have hlt := lt_length_of_getElem? _ _ _ hr
    exact ⟨_, _, step_edit_keywords b e userID chatID text k r h hk hr, by simp,
      by by_cases h1t : text = "1" <;> simp [h1t, hlt], by simp [Bot.setState]⟩
  · exact ⟨_, _, step_edit_group b e userID chatID text k r h hk hr, by simp, by simp⟩
  · rw [List.getElem?_set]
    simp [Ne.symm hj]

/-- C13, at a concrete input: in state `edit_url_1` of a list of three, a new
URL replaces that of the second record only. -/
theorem edit_session_frame_witness :
    ∃ b1 m, handleUserInput (exampleBot.setState 7 ("edit_url_" ++ formatInt (1 : Nat))) false 7 5
        "http://new/feed" = some (b1, m) ∧
      b1.config.RSS = [⟨"http://a/feed", 60, ["go"], "tech"⟩,
        ⟨"http://new/feed", 300, [], "news"⟩, ⟨"http://c/feed", 120, ["x", "y"], "misc"⟩] ∧
      b1.userState 7 = some "edit_interval_1" := by
  obtain ⟨b1, m, h, hrss, _, hst⟩ :=
    ((edit_session_frame (exampleBot.setState 7 ("edit_url_" ++ formatInt (1 : Nat))) false 7 5
      "http://new/feed").2.1 1 ⟨"http://b/feed", 300, [], "news"⟩ (by decide) rfl).1 rfl
  exact ⟨b1, m, h, by rw [hrss]; decide, by rw [hst]; decide⟩

/-- C14. For a user with no entry in the state table and every text,
`handleUserInput` returns the bot as it was (list and state table, so no entry
is created) with no effect: no message, no save, no callback. -/
theorem no_dialog_text_is_ignored (b : Bot) (e : Bool) (userID chatID : Int) (text : String)
    (hstate : b.userState userID = none) :
    handleUserInput b e userID chatID text = some (b, []) := by
  have h0 : b.state userID = "" := by simp [Bot.state, hstate]
  simp [handleUserInput, h0, HasPrefix, List.isPrefixOf]

/-- C14, at a concrete input: "hello" with no open dialog. -/
theorem no_dialog_text_is_ignored_witness :
    observe 7 (handleUserInput exampleBot true 7 5 "hello")
      = some (exampleBot.config.RSS, none, []) := by
  rw [no_dialog_text_is_ignored exampleBot true 7 5 "hello" rfl]
  decide

/-- C15, as stated, fails for the interval: in state `edit_interval_0`, the
text "01" is not the sentinel, `strconv.Atoi` parses it to 1, and the interval
of the record changes from 60 to 1. -/
theorem interval_one_is_storable :
    observe 7 (handleUserInput (exampleBot.setState 7 "edit_interval_0") false 7 5 "01")
      = some ([⟨"http://a/feed", 1, ["go"], "tech"⟩, ⟨"http://b/feed", 300, [], "news"⟩,
          ⟨"http://c/feed", 120, ["x", "y"], "misc"⟩],
        some "edit_keywords_0",
        [.send 5 "当前关键词为：[go]\n请输入新的关键词（用逗号分隔，如不修改请输入1）："]) := by
  decide

/-- C15, amended. For a call that completes and a record whose field differs
after the call: in a state `edit_url_<i>` the new URL is the text and is not
"1"; in a state `edit_group_<i>` the new group is the text and is not "1"; in a
state `edit_keywords_<i>` and in state `add_keywords` the new keywords are the
text split on "," and are not `["1"]`; in a state `edit_interval_<i>` the text
is not "1" and the new interval is what `strconv.Atoi` parses the text to
(which is 1 for a text such as "01" or "+1"). -/
theorem sentinel_not_stored (b : Bot) (e : Bool) (userID chatID : Int) (text : String)
    (b1 : Bot) (m : List Effect) (h : handleUserInput b e userID chatID text = some (b1, m))
    (j : Nat) (r r' : RSSConfig) (hr : b.config.RSS[j]? = some r)
    (hr' : b1.config.RSS[j]? = some r') :
    (HasPrefix (b.state userID) "edit_url_" = true → r'.URL ≠ r.URL →
      r'.URL = text ∧ r'.URL ≠ "1") ∧
    (HasPrefix (b.state userID) "edit_group_" = true → r'.Group ≠ r.Group →
      r'.Group = text ∧ r'.Group ≠ "1") ∧
    (HasPrefix (b.state userID) "edit_keywords_" = true ∨ b.state userID = "add_keywords" →
      r'.Keywords ≠ r.Keywords → r'.Keywords = Split text ∧ r'.Keywords ≠ ["1"]) ∧
    (HasPrefix (b.state userID) "edit_interval_" = true → r'.Interval ≠ r.Interval →
      text ≠ "1" ∧ Atoi text = (r'.Interval, none)) := by
  refine ⟨fun hp hne => ?_, fun hp hne => ?_, fun hp hne => ?_, fun hp hne => ?_⟩
  · rcases branch_edit_url b e userID chatID text b1 m hp h with ⟨_, hs⟩ | ⟨ht, k, x, _, hs⟩
    · rw [hs, hr] at hr'
      exact absurd (congrArg RSSConfig.URL (Option.some.inj hr')).symm hne
    · rw [hs] at hr'
      have := set_changed _ _ _ _ _ _ hr' hr (fun hc => hne (congrArg RSSConfig.URL hc))
      rw [this]
      exact ⟨rfl, ht⟩
  · rcases branch_edit_group b e userID chatID text b1 m hp h with ⟨_, hs⟩ | ⟨ht, k, x, _, hs⟩
    · rw [hs, hr] at hr'
      exact absurd (congrArg RSSConfig.Group (Option.some.inj hr')).symm hne
    · rw [hs] at hr'
      have := set_changed _ _ _ _ _ _ hr' hr (fun hc => hne (congrArg RSSConfig.Group hc))
      rw [this]
      exact ⟨rfl, ht⟩
  · have hb : (text = "1" ∧ b1.config.RSS = b.config.RSS) ∨
        (text ≠ "1" ∧ ∃ k r, b.config.RSS[k]? = some r
          ∧ b1.config.RSS = b.config.RSS.set k { r with Keywords := Split text }) := by
      rcases hp with hp | hp
      · exact branch_edit_keywords b e userID chatID text b1 m hp h
      · exact branch_add_keywords b e userID chatID text b1 m hp h
    rcases hb with ⟨_, hs⟩ | ⟨ht, k, x, _, hs⟩
    · rw [hs, hr] at hr'
      exact absurd (congrArg RSSConfig.Keywords (Option.some.inj hr')).symm hne
    · rw [hs] at hr'
      have := set_changed _ _ _ _ _ _ hr' hr (fun hc => hne (congrArg RSSConfig.Keywords hc))
      rw [this]
      exact ⟨rfl, fun hc => ht (Split_eq_one text hc)⟩
  · rcases branch_edit_interval b e userID chatID text b1 m hp h with
      ⟨_, hs⟩ | ⟨_, _, hs⟩ | ⟨ht, hn, k, x, _, hs⟩
    · rw [hs, hr] at hr'
      exact absurd (congrArg RSSConfig.Interval (Option.some.inj hr')).symm hne
    · rw [hs, hr] at hr'
      exact absurd (congrArg RSSConfig.Interval (Option.some.inj hr')).symm hne
    · rw [hs] at hr'
      have := set_changed _ _ _ _ _ _ hr' hr (fun hc => hne (congrArg RSSConfig.Interval hc))
      rw [this]
      exact ⟨ht, Prod.ext rfl hn⟩

/-- C15, amended, at a concrete input: the change of the interval from 60 to 1
in state `edit_interval_0` comes from the text "01". -/
theorem sentinel_not_stored_witness : "01" ≠ "1" ∧ Atoi "01" = (1, none) :=
  (sentinel_not_stored (exampleBot.setState 7 "edit_interval_0") false 7 5 "01" _ _
    (step_edit_interval (exampleBot.setState 7 "edit_interval_0") false 7 5 "01" 0 1
      ⟨"http://a/feed", 60, ["go"], "tech"⟩ rfl (by decide) rfl (by decide))
    0 ⟨"http://a/feed", 60, ["go"], "tech"⟩ ⟨"http://a/feed", 1, ["go"], "tech"⟩ rfl
    (by decide)).2.2.2 (by decide) (by decide)

/-- C16. `handleConfig` and `handleList`.  When `config.Load` fails the bot is
unchanged and the one effect is one message, the load error after the fixed
words, which is neither a configuration listing nor a subscription listing.
When it succeeds the configuration of the bot is the loaded one and the one
effect is one message: the fixed header followed by one entry for each loaded
record in list order, the entry of the record at position `i` (from 0) starting
with the number `i + 1`. -/
theorem reload_then_list (b : Bot) (chatID : Int) :
    (∀ err,
      handleConfig b (.error err) chatID = (b, [.send chatID ("加载配置时出错：" ++ err)]) ∧
      handleList b (.error err) chatID = (b, [.send chatID ("加载配置时出错：" ++ err)]) ∧
      ∀ b', "加载配置时出错：" ++ err ≠ getConfig b'
        ∧ "加载配置时出错：" ++ err ≠ listSubscriptions b') ∧
    (∀ newConfig,
      handleConfig b (.ok newConfig) chatID
        = ({ b with config := newConfig },
          [.send chatID (getConfig { b with config := newConfig })]) ∧
      handleList b (.ok newConfig) chatID
        = ({ b with config := newConfig },
          [.send chatID (listSubscriptions { b with config := newConfig })]) ∧
      getConfig { b with config := newConfig }
        = "当前配置信息：\n" ++ ("用户: " ++ formatInts b.users ++ "\n")
          ++ ("频道: " ++ formatStrings b.channels ++ "\n") ++ "RSS订阅:\n"
          ++ String.join (newConfig.RSS.enum.map (fun p => formatRSS p.1 p.2)) ∧
      listSubscriptions { b with config := newConfig }
        = "当前RSS订阅列表:\n"
          ++ String.join (newConfig.RSS.enum.map (fun p => formatRSS p.1 p.2))) ∧
    (∀ i rss, formatRSS i rss
      = formatInt (i + 1) ++ ". 📡  URL: " ++ rss.URL ++ "\n   ⏱️  间隔: " ++ formatInt rss.Interval
        ++ "秒\n   🔑  关键词: " ++ formatStrings rss.Keywords ++ "\n   🏷️  组名: " ++ rss.Group
        ++ "\n") := by
  refine ⟨fun err => ⟨rfl, rfl, fun b' => ⟨?_, ?_⟩⟩, fun newConfig => ⟨rfl, rfl, ?_, ?_⟩,
    fun i rss => rfl⟩
  · rw [getConfig, appendRSS_eq]
    simp [String.ext_iff]
  · rw [listSubscriptions, appendRSS_eq]
    simp [String.ext_iff]
  · rw [getConfig, appendRSS_eq]
    rfl
  · rw [listSubscriptions, appendRSS_eq]
    rfl

/-- C16, at a concrete input: `/list` when the file holds two records, the
in-memory list holding three others. -/
theorem reload_then_list_witness :
    (handleList exampleBot
      (.ok { RSS := [⟨"http://x/feed", 30, ["a", "b"], "g1"⟩, ⟨"http://y/feed", 45, [], "g2"⟩] })
      5).2
      = [.send 5 ("当前RSS订阅列表:\n"
        ++ "1. 📡  URL: http://x/feed\n   ⏱️  间隔: 30秒\n   🔑  关键词: [a b]\n   🏷️  组名: g1\n"
        ++ "2. 📡  URL: http://y/feed\n   ⏱️  间隔: 45秒\n   🔑  关键词: []\n   🏷️  组名: g2\n")] := by
  rw [((reload_then_list exampleBot 5).2.1
    { RSS := [⟨"http://x/feed", 30, ["a", "b"], "g1"⟩, ⟨"http://y/feed", 45, [], "g2"⟩] }).2.1]
  decide

/-- C17. Whatever the state entry of the user was, `handleAdd`, `handleEdit`
and `handleDelete` leave it equal to `add_url`, `edit_index` and `delete`, send
exactly one message (the prompt), and change neither the configuration nor the
entry of any other user; these are the handlers of the commands `add`, `edit`
and `delete`.  The state table is a map, so a user has at most one token. -/
theorem commands_open_one_dialog (b : Bot) (chatID userID : Int) :
    ((handleAdd b chatID userID).1.userState userID = some "add_url" ∧
      (handleEdit b chatID userID).1.userState userID = some "edit_index" ∧
      (handleDelete b chatID userID).1.userState userID = some "delete") ∧
    ((handleAdd b chatID userID).2 = [.send chatID "请输入要添加的RSS订阅URL："] ∧
      (handleEdit b chatID userID).2 = [.send chatID "请输入要编辑的RSS订阅编号："] ∧
      (handleDelete b chatID userID).2 = [.send chatID "请输入要删除的RSS订阅编号："]) ∧
    ((handleAdd b chatID userID).1.config = b.config ∧
      (handleEdit b chatID userID).1.config = b.config ∧
      (handleDelete b chatID userID).1.config = b.config) ∧
    (∀ v, v ≠ userID →
      (handleAdd b chatID userID).1.userState v = b.userState v ∧
      (handleEdit b chatID userID).1.userState v = b.userState v ∧
      (handleDelete b chatID userID).1.userState v = b.userState v) ∧
    (∀ w, dispatch b w (.command "add" userID chatID) = some (handleAdd b chatID userID) ∧
      dispatch b w (.command "edit" userID chatID) = some (handleEdit b chatID userID) ∧
      dispatch b w (.command "delete" userID chatID) = some (handleDelete b chatID userID)) := by
  refine ⟨?_, ?_, ?_, ?_, ?_⟩
  · simp [handleAdd, handleEdit, handleDelete, Bot.setState]
  · simp [handleAdd, handleEdit, handleDelete]
  · simp [handleAdd, handleEdit, handleDelete]
  · intro v hv
    simp [handleAdd, handleEdit, handleDelete, Bot.setState, hv]
  · intro w
    simp [dispatch]

/-- C17, at a concrete input: `/delete` in the middle of an add dialog replaces
the token of that dialog. -/
theorem commands_open_one_dialog_witness :
    (handleAdd exampleBot 5 7).1.userState 7 = some "add_url" ∧
    (handleDelete (handleAdd exampleBot 5 7).1 5 7).1.userState 7 = some "delete" :=
  ⟨(commands_open_one_dialog exampleBot 5 7).1.1,
    (commands_open_one_dialog (handleAdd exampleBot 5 7).1 5 7).1.2.2⟩

/-- C18. With the display zone loaded, `inChina` giving the date and clock of
a time in that zone: for every directory and every outcome of the sends, each
attempt of `SendMessage` carries the same text, the five lines built from the
event alone: the title between `*`, the URL, the matched keywords each between
`*` and joined with ", " in their order (nothing for no keyword), the group
between `*`, and the time between `*`.  The time is the layout
`2006-01-02 15:04:05` of the date and clock: for a year of at most four digits,
four digits of the year, two of the month, two of the day, a blank, and two
digits each of the hour, the minute and the second, with `-` and `:`
between. -/
theorem broadcast_text_of_event {Time : Type} (inChina : Time → Civil) (title url group : String)
    (pubDate : Time) (matchedKeywords : List String) :
    (∀ (b : Bot) (sendErr : Nat → Bool),
      ∃ trace,
        SendMessage b (some (fun t => formatLayout (inChina t))) sendErr title url group
          pubDate matchedKeywords = some (trace, none)
        ∧ trace.filter Delivery.isAttempt
          = b.users.map (fun userID => Delivery.toUser userID
              ("*" ++ title ++ "*\n📡  " ++ url ++ "\n🔍  "
                ++ Join (matchedKeywords.map (fun keyword => "*" ++ keyword ++ "*")) ", "
                ++ "\n🏷️  *" ++ group ++ "*\n🕒  *" ++ formatLayout (inChina pubDate) ++ "*"))
            ++ b.channels.map (fun channel => Delivery.toChannel channel
              ("*" ++ title ++ "*\n📡  " ++ url ++ "\n🔍  "
                ++ Join (matchedKeywords.map (fun keyword => "*" ++ keyword ++ "*")) ", "
                ++ "\n🏷️  *" ++ group ++ "*\n🕒  *" ++ formatLayout (inChina pubDate) ++ "*"))) ∧
    (Join [] ", " = "" ∧ (∀ a, Join [a] ", " = a) ∧
      ∀ a b rest, Join (a :: b :: rest) ", " = a ++ ", " ++ Join (b :: rest) ", ") ∧
    (∀ t : Civil, 0 ≤ t.year → t.year < 10000 → t.month < 100 → t.day < 100 → t.hour < 100 →
      t.minute < 100 → t.second < 100 →
      formatLayout t = ⟨[Char.ofNat (48 + t.year.toNat / 1000),
        Char.ofNat (48 + t.year.toNat / 100 % 10), Char.ofNat (48 + t.year.toNat / 10 % 10),
        Char.ofNat (48 + t.year.toNat % 10), '-',
        Char.ofNat (48 + t.month / 10), Char.ofNat (48 + t.month % 10), '-',
        Char.ofNat (48 + t.day / 10), Char.ofNat (48 + t.day % 10), ' ',
        Char.ofNat (48 + t.hour / 10), Char.ofNat (48 + t.hour % 10), ':',
        Char.ofNat (48 + t.minute / 10), Char.ofNat (48 + t.minute % 10), ':',
        Char.ofNat (48 + t.second / 10), Char.ofNat (48 + t.second % 10)]⟩) := by
  refine ⟨fun b sendErr => ⟨_, rfl, ?_⟩,
    ⟨rfl, fun a => rfl, fun a b rest => Join_cons_cons _ _ _ _⟩,
    fun t h0 hy hmo hd hh hmi hs => ?_⟩
  · simp [attempts_sendToUsers, attempts_sendToChannels, messageText, boldKeywords]
  · obtain ⟨y, hyy⟩ := Int.eq_ofNat_of_zero_le h0
    have hy' : y < 10000 := by omega
    unfold formatLayout
    rw [hyy, appendInt_four y hy', appendInt_two _ hmo, appendInt_two _ hd, appendInt_two _ hh,
      appendInt_two _ hmi, appendInt_two _ hs]
    simp
    rfl

/-- C18, at a concrete input: two keywords, the time 2024-01-02 03:04:05 of
the display zone, the first send failing. -/
theorem broadcast_text_of_event_witness :
    ∃ trace,
      SendMessage exampleBot (some (fun t : Civil => formatLayout t)) (fun k => k == 0) "T"
        "http://a/1" "tech" ⟨2024, 1, 2, 3, 4, 5⟩ ["go", "rust"] = some (trace, none)
      ∧ trace.filter Delivery.isAttempt
        = [.toUser 11
            "*T*\n📡  http://a/1\n🔍  *go*, *rust*\n🏷️  *tech*\n🕒  *2024-01-02 03:04:05*",
          .toUser 12
            "*T*\n📡  http://a/1\n🔍  *go*, *rust*\n🏷️  *tech*\n🕒  *2024-01-02 03:04:05*",
          .toChannel "@news"
            "*T*\n📡  http://a/1\n🔍  *go*, *rust*\n🏷️  *tech*\n🕒  *2024-01-02 03:04:05*"] := by
  obtain ⟨trace, h, hf⟩ :=
    (broadcast_text_of_event (fun t : Civil => t) "T" "http://a/1" "tech" ⟨2024, 1, 2, 3, 4, 5⟩
      ["go", "rust"]).1 exampleBot (fun k => k == 0)
  exact ⟨trace, h, by rw [hf]; decide⟩

/-- C19. On a list `l ++ [r]`, whoever appended `r`: the step of state
`add_interval` (with a text that parses to `n`), of state `add_keywords` and of
state `add_group` completes and leaves `l` followed by `r` with the step's
field written (the keywords only for a text other than "1"), so no other
record changes.  Hence, for two users both in state `add_url`: after the URL of
A, the URL of B, and then the interval, keywords and group of A, the list is
the initial one followed by A's draft, still with interval 0, no keywords and
an empty group, and by the record with B's URL and A's interval, keywords and
group; A's entry is removed and B is left in state `add_interval`. -/
theorem add_steps_write_last_record (b : Bot) (e1 e2 e3 e4 e5 : Bool)
    (userA userB c1 c2 c3 c4 c5 : Int) (urlA urlB t k g : String) :
    (∀ l r, b.config.RSS = l ++ [r] →
      (b.state userA = "add_interval" → ∀ n, Atoi t = (n, none) →
        ∃ b1 m, handleUserInput b e1 userA c1 t = some (b1, m)
          ∧ b1.config.RSS = l ++ [{ r with Interval := n }]) ∧
      (b.state userA = "add_keywords" →
        ∃ b1 m, handleUserInput b e1 userA c1 k = some (b1, m)
          ∧ b1.config.RSS = l ++ [if k = "1" then r else { r with Keywords := Split k }]) ∧
      (b.state userA = "add_group" →
        ∃ b1 m, handleUserInput b e1 userA c1 g = some (b1, m)
          ∧ b1.config.RSS = l ++ [{ r with Group := g }])) ∧
    (∀ n, userA ≠ userB → b.state userA = "add_url" → b.state userB = "add_url" →
      Atoi t = (n, none) →
      ∃ b1 b2 b3 b4 b5 m1 m2 m3 m4 m5,
        handleUserInput b e1 userA c1 urlA = some (b1, m1) ∧
        handleUserInput b1 e2 userB c2 urlB = some (b2, m2) ∧
        handleUserInput b2 e3 userA c3 t = some (b3, m3) ∧
        handleUserInput b3 e4 userA c4 k = some (b4, m4) ∧
        handleUserInput b4 e5 userA c5 g = some (b5, m5) ∧
        b5.config.RSS = b.config.RSS ++
          [⟨urlA, 0, [], ""⟩, ⟨urlB, n, if k = "1" then [] else Split k, g⟩] ∧
        b5.userState userA = none ∧ b5.userState userB = some "add_interval") := by
  refine ⟨fun l r hl => ⟨fun h n ht => ?_, fun h => ?_, fun h => ?_⟩,
    fun n hAB hA hB ht => ?_⟩
  · exact ⟨_, _, step_add_interval b e1 userA c1 t n l r h ht hl, by simp⟩
  · exact ⟨_, _, step_add_keywords b e1 userA c1 k l r h hl, by simp⟩
  · exact ⟨_, _, step_add_group b e1 userA c1 g l r h hl, by simp⟩
  · have hBA : userB ≠ userA := fun h => hAB h.symm
    have s1 := step_add_url b e1 userA c1 urlA hA
    have s2 := step_add_url
      ((b.setState userA "add_interval").setRSS
        (b.config.RSS ++ [(⟨urlA, 0, [], ""⟩ : RSSConfig)]))
      e2 userB c2 urlB (by simp [state_setState_ne _ _ _ _ hBA, hB])
    simp only [config_setState, RSS_setRSS] at s2
    have s3 := step_add_interval
      ((((b.setState userA "add_interval").setRSS
        (b.config.RSS ++ [(⟨urlA, 0, [], ""⟩ : RSSConfig)])).setState userB
          "add_interval").setRSS
        (b.config.RSS ++ [(⟨urlA, 0, [], ""⟩ : RSSConfig)] ++ [(⟨urlB, 0, [], ""⟩ : RSSConfig)]))
      e3 userA c3 t n (b.config.RSS ++ [(⟨urlA, 0, [], ""⟩ : RSSConfig)])
      (⟨urlB, 0, [], ""⟩ : RSSConfig)
      (by simp [state_setState_ne _ _ _ _ hAB]) ht rfl
    have s4 := step_add_keywords
      ((((((b.setState userA "add_interval").setRSS
        (b.config.RSS ++ [(⟨urlA, 0, [], ""⟩ : RSSConfig)])).setState userB
          "add_interval").setRSS
        (b.config.RSS ++ [(⟨urlA, 0, [], ""⟩ : RSSConfig)]
          ++ [(⟨urlB, 0, [], ""⟩ : RSSConfig)])).setRSS
        (b.config.RSS ++ [(⟨urlA, 0, [], ""⟩ : RSSConfig)]
          ++ [(⟨urlB, n, [], ""⟩ : RSSConfig)])).setState userA "add_keywords")
      e4 userA c4 k (b.config.RSS ++ [(⟨urlA, 0, [], ""⟩ : RSSConfig)])
      (⟨urlB, n, [], ""⟩ : RSSConfig) (by simp) rfl
    have s5 := step_add_group
      ((((((((b.setState userA "add_interval").setRSS
        (b.config.RSS ++ [(⟨urlA, 0, [], ""⟩ : RSSConfig)])).setState userB
          "add_interval").setRSS
        (b.config.RSS ++ [(⟨urlA, 0, [], ""⟩ : RSSConfig)]
          ++ [(⟨urlB, 0, [], ""⟩ : RSSConfig)])).setRSS
        (b.config.RSS ++ [(⟨urlA, 0, [], ""⟩ : RSSConfig)]
          ++ [(⟨urlB, n, [], ""⟩ : RSSConfig)])).setState userA "add_keywords").setRSS
        (b.config.RSS ++ [(⟨urlA, 0, [], ""⟩ : RSSConfig)]
          ++ [if k = "1" then (⟨urlB, n, [], ""⟩ : RSSConfig)
            else (⟨urlB, n, Split k, ""⟩ : RSSConfig)])).setState userA "add_group")
      e5 userA c5 g (b.config.RSS ++ [(⟨urlA, 0, [], ""⟩ : RSSConfig)])
      (if k = "1" then (⟨urlB, n, [], ""⟩ : RSSConfig) else (⟨urlB, n, Split k, ""⟩ : RSSConfig))
      (by simp) rfl
    refine ⟨_, _, _, _, _, _, _, _, _, _, s1, s2, s3, s4, s5, ?_, ?_, ?_⟩
    · by_cases hk : k = "1" <;> simp [hk]
    · simp
    · simp [Bot.deleteState, Bot.setState, hBA]

/-- C19, at a concrete input: users 7 and 8 both send `/add`; 7 sends a URL, 8
sends a URL, then 7 sends "60", "x,y" and "g". -/
theorem add_steps_write_last_record_witness :
    ∃ b5 : Bot,
      b5.config.RSS
        = [⟨"http://a/feed", 0, [], ""⟩, ⟨"http://b/feed", 60, ["x", "y"], "g"⟩] ∧
      b5.userState 7 = none ∧ b5.userState 8 = some "add_interval" := by
  obtain ⟨b1, b2, b3, b4, b5, m1, m2, m3, m4, m5, _, _, _, _, _, hrss, hA, hB⟩ :=
    (add_steps_write_last_record (handleAdd (handleAdd emptyBot 5 7).1 6 8).1 false false false
      false false 7 8 5 6 5 5 5 "http://a/feed" "http://b/feed" "60" "x,y" "g").2 60
      (by decide) rfl rfl (by decide)
  exact ⟨b5, by rw [hrss]; decide, hA, hB⟩

/-- C20. For every index `k` of the code, a Go `int` that is not negative
(the code formats `index - 1` with `1 ≤ index`, and the indices it has read
back), and each of the four steps: the token `edit_<step>_<k>` that
`fmt.Sprintf` writes is none of the six fixed tokens, has the prefix of its own
step and of no other step, and `strconv.Atoi` of the token without that prefix
returns `k` and no error.  The handlers store only the fixed tokens and such
tokens: if every entry of the state table is one, so is every entry after a
call of `handleUserInput` and after a run of the update loop. -/
theorem edit_token_round_trip :
    (∀ k : Nat, (k : Int) ≤ maxInt →
      (("edit_url_" ++ formatInt k ≠ "add_url" ∧ "edit_url_" ++ formatInt k ≠ "add_interval" ∧
          "edit_url_" ++ formatInt k ≠ "add_keywords" ∧ "edit_url_" ++ formatInt k ≠ "add_group" ∧
          "edit_url_" ++ formatInt k ≠ "edit_index" ∧ "edit_url_" ++ formatInt k ≠ "delete") ∧
        HasPrefix ("edit_url_" ++ formatInt k) "edit_url_" = true ∧
        HasPrefix ("edit_url_" ++ formatInt k) "edit_interval_" = false ∧
        HasPrefix ("edit_url_" ++ formatInt k) "edit_keywords_" = false ∧
        HasPrefix ("edit_url_" ++ formatInt k) "edit_group_" = false ∧
        Atoi (TrimPrefix ("edit_url_" ++ formatInt k) "edit_url_") = ((k : Int), none)) ∧
      (("edit_interval_" ++ formatInt k ≠ "add_url" ∧
          "edit_interval_" ++ formatInt k ≠ "add_interval" ∧
          "edit_interval_" ++ formatInt k ≠ "add_keywords" ∧
          "edit_interval_" ++ formatInt k ≠ "add_group" ∧
          "edit_interval_" ++ formatInt k ≠ "edit_index" ∧
          "edit_interval_" ++ formatInt k ≠ "delete") ∧
        HasPrefix ("edit_interval_" ++ formatInt k) "edit_interval_" = true ∧
        HasPrefix ("edit_interval_" ++ formatInt k) "edit_url_" = false ∧
        HasPrefix ("edit_interval_" ++ formatInt k) "edit_keywords_" = false ∧
        HasPrefix ("edit_interval_" ++ formatInt k) "edit_group_" = false ∧
        Atoi (TrimPrefix ("edit_interval_" ++ formatInt k) "edit_interval_")
          = ((k : Int), none)) ∧
      (("edit_keywords_" ++ formatInt k ≠ "add_url" ∧
          "edit_keywords_" ++ formatInt k ≠ "add_interval" ∧
          "edit_keywords_" ++ formatInt k ≠ "add_keywords" ∧
          "edit_keywords_" ++ formatInt k ≠ "add_group" ∧
          "edit_keywords_" ++ formatInt k ≠ "edit_index" ∧
          "edit_keywords_" ++ formatInt k ≠ "delete") ∧
        HasPrefix ("edit_keywords_" ++ formatInt k) "edit_keywords_" = true ∧
        HasPrefix ("edit_keywords_" ++ formatInt k) "edit_url_" = false ∧
        HasPrefix ("edit_keywords_" ++ formatInt k) "edit_interval_" = false ∧
        HasPrefix ("edit_keywords_" ++ formatInt k) "edit_group_" = false ∧
        Atoi (TrimPrefix ("edit_keywords_" ++ formatInt k) "edit_keywords_")
          = ((k : Int), none)) ∧
      (("edit_group_" ++ formatInt k ≠ "add_url" ∧ "edit_group_" ++ formatInt k ≠ "add_interval" ∧
          "edit_group_" ++ formatInt k ≠ "add_keywords" ∧
          "edit_group_" ++ formatInt k ≠ "add_group" ∧
          "edit_group_" ++ formatInt k ≠ "edit_index" ∧ "edit_group_" ++ formatInt k ≠ "delete") ∧
        HasPrefix ("edit_group_" ++ formatInt k) "edit_group_" = true ∧
        HasPrefix ("edit_group_" ++ formatInt k) "edit_url_" = false ∧
        HasPrefix ("edit_group_" ++ formatInt k) "edit_interval_" = false ∧
        HasPrefix ("edit_group_" ++ formatInt k) "edit_keywords_" = false ∧
        Atoi (TrimPrefix ("edit_group_" ++ formatInt k) "edit_group_") = ((k : Int), none))) ∧
    (∀ (b : Bot) (e : Bool) (userID chatID : Int) (text : String) (b1 : Bot) (m : List Effect),
      (∀ v t, b.userState v = some t → storedToken t) →
      handleUserInput b e userID chatID text = some (b1, m) →
      ∀ v t, b1.userState v = some t → storedToken t) ∧
    (∀ (trace : List (Update × Answers)) (b b1 : Bot) (m : List Effect),
      (∀ v t, b.userState v = some t → storedToken t) →
      run b trace = some (b1, m) →
      ∀ v t, b1.userState v = some t → storedToken t) := by
  refine ⟨fun k hk => ?_, fun b e u c text b1 m hinv h => stored_step b e u c text b1 m hinv h,
    fun trace b b1 m hinv h => stored_run trace b b1 m hinv h⟩
  have ha := Atoi_formatInt k (by omega) hk
  obtain ⟨⟨a1, a2, a3⟩, ⟨b1, b2, b3⟩, ⟨c1, c2, c3⟩, ⟨d1, d2, d3⟩⟩ :=
    edit_prefix_table (formatInt k)
  obtain ⟨u1, u2, u3, u4, u5, u6, u7, u8⟩ := edit_url_token (formatInt k)
  obtain ⟨i1, i2, i3, i4, i5, i6, _, i8, i9⟩ := edit_interval_token (formatInt k)
  obtain ⟨k1, k2, k3, k4, k5, k6, _, _, k9, k10⟩ := edit_keywords_token (formatInt k)
  obtain ⟨g1, g2, g3, g4, g5, g6, _, _, _, g10, g11⟩ := edit_group_token (formatInt k)
  refine ⟨⟨⟨u1, u2, u3, u4, u5, u6⟩, u7, a1, a2, a3, ?_⟩,
    ⟨⟨i1, i2, i3, i4, i5, i6⟩, i8, b1, b2, b3, ?_⟩,
    ⟨⟨k1, k2, k3, k4, k5, k6⟩, k9, c1, c2, c3, ?_⟩,
    ⟨⟨g1, g2, g3, g4, g5, g6⟩, g10, d1, d2, d3, ?_⟩⟩
  · rw [u8, ha]
  · rw [i9, ha]
  · rw [k10, ha]
  · rw [g11, ha]

/-- C20, at a concrete input: the token of the interval step for index 41. -/
theorem edit_token_round_trip_witness :
    "edit_interval_" ++ formatInt (41 : Nat) = "edit_interval_41" ∧
    Atoi (TrimPrefix ("edit_interval_" ++ formatInt (41 : Nat)) "edit_interval_")
      = (41, none) :=
  ⟨by decide, (edit_token_round_trip.1 41 (by decide)).2.1.2.2.2.2.2⟩

end Rss2tg
